import Mathlib

/-!
Shallow embedding of the EduNavigator recommendation engine
(`services/recommendationService.js`, `controllers/recommendationController.js`,
`models/Recommendation.js`, `models/User.js`) and verification of the
specification's claims about it.

Conventions of the embedding:
* JavaScript numbers are modelled as exact rationals (`ℚ`); integer ids and
  counters as `Nat`/`Int`.
* A JavaScript field that may be `undefined` is an `Option`; note that in
  JavaScript an *empty array* is truthy, so `Option (List _)` presence means
  the field exists, even when the list is empty.
* The floating-point value `NaN` (arising from `0/0` in
  `calculateContentSimilarity`) is modelled by `Option ℚ` with `none` playing
  the role of `NaN`: it propagates through arithmetic and every ordered
  comparison against it is false.
* Database reads (candidate pools, neighbour users, preference aggregation)
  are passed to the functions as explicit list arguments; database writes are
  explicit state passing on a `List StoredRec` store.
-/

namespace EduNav

/-- Lower-case a string character by character (model of `String.toLowerCase`). -/
def lowerStr (s : String) : String :=
  String.mk (s.toList.map Char.toLower)

/-- Substring containment (model of JavaScript `String.includes`):
`hay` contains `needle` as a contiguous substring. -/
def strIncludes (hay needle : String) : Bool :=
  (List.range (hay.toList.length + 1)).any fun i =>
    decide (((hay.toList.drop i).take needle.toList.length) = needle.toList)

/-- Case-insensitive substring containment, the matching primitive used by
the rule-based scorer (`a.toLowerCase().includes(b.toLowerCase())`). -/
def ciIncludes (hay needle : String) : Bool :=
  strIncludes (lowerStr hay) (lowerStr needle)

/-- The discriminator of a recommended entity (`entity_type` in the schema). -/
inductive EntityType
  | exam
  | opportunity
deriving DecidableEq, Repr

/-- The `algorithm_used` enum of the recommendation schema. -/
inductive Algorithm
  | rule_based
  | content_based
  | collaborative_filtering
  | hybrid
deriving DecidableEq, Repr

/-- One element of `recommendation_reasons`. -/
structure Reason where
  reason : String
  weight : ℚ
deriving DecidableEq, Repr

/-- `school_info` subdocument of a user. -/
structure SchoolInfo where
  stream : String
deriving DecidableEq, Repr

/-- `education` subdocument of a user. -/
structure Education where
  degree : String
  year : Int
deriving DecidableEq, Repr

/-- A user document, restricted to the fields the recommendation engine
reads.  `interests` is `user.preferences.interests`; the saved lists hold
entity ids. -/
structure User where
  id : Nat
  role : String
  is_active : Bool
  school_info : Option SchoolInfo
  education : Education
  interests : List String
  saved_exams : List Nat
  saved_hackathons : List Nat
  saved_internships : List Nat
deriving DecidableEq, Repr

/-- An exam document, restricted to the fields the scorers read. -/
structure ExamC where
  id : Nat
  exam_name : String
  subjects : List String
  application_count : Int
deriving DecidableEq, Repr

/-- An opportunity document, restricted to the fields the scorers read.
`domain` is guarded by truthiness in the source (`opportunity.domain && …`),
hence an `Option`. -/
structure OppC where
  id : Nat
  title : String
  otype : String
  skills_required : List String
  domain : Option (List String)
  degree_required : List String
  year_of_study : List Int
  application_count : Int
deriving DecidableEq, Repr

/-- An in-flight recommendation produced by a scorer (the plain object pushed
onto `recommendations` before `insertMany`). -/
structure Rec where
  user_id : Nat
  entity_type : EntityType
  entity_id : Nat
  score : ℚ
  algorithm_used : Algorithm
  recommendation_reasons : List Reason
deriving DecidableEq, Repr

/-! ## Rule-based scorer (`generateRuleBasedRecommendations`, service) -/

/-- The hard-coded science subject list of the rule-based scorer. -/
def scienceSubjects : List String := ["Physics", "Chemistry", "Maths", "Biology"]

/-- Whether the user is recorded as a Science-stream school student
(`user.school_info && user.school_info.stream === 'Science'`). -/
def isScienceStream (user : User) : Bool :=
  match user.school_info with
  | some si => si.stream = "Science"
  | none => false

/-- The interests of `user` that textually match the exam
(name or some subject, case-insensitive substring). -/
def examMatchingInterests (user : User) (exam : ExamC) : List String :=
  user.interests.filter fun interest =>
    ciIncludes exam.exam_name interest ||
    exam.subjects.any fun subject => ciIncludes subject interest

/-- Raw rule-based score and reasons for one exam candidate, before the
`> 0.6` emission check and the `min(score, 1.0)` clamp. -/
def ruleExamScore (user : User) (exam : ExamC) : ℚ × List Reason :=
  let s0 : ℚ := 1/2
  let r0 : List Reason := []
  let step1 : ℚ × List Reason :=
    if isScienceStream user ∧
        (exam.subjects.filter fun subject =>
          scienceSubjects.any fun sci => ciIncludes subject sci).length > 0 then
      (s0 + 3/10, r0 ++ [⟨"Matches your Science stream", 3/10⟩])
    else (s0, r0)
  let matching := examMatchingInterests user exam
  let step2 : ℚ × List Reason :=
    if user.interests.length > 0 ∧ matching.length > 0 then
      (step1.1 + ((matching.length : ℚ) / (user.interests.length : ℚ)) * (1/5),
       step1.2 ++ [⟨"Aligns with your interests", 1/5⟩])
    else step1
  if exam.application_count > 100 then
    (step2.1 + 1/10, step2.2 ++ [⟨"Popular among students", 1/10⟩])
  else step2

/-- The interests of `user` that textually match the opportunity
(title, some required skill, or some domain entry). -/
def oppMatchingInterests (user : User) (opp : OppC) : List String :=
  user.interests.filter fun interest =>
    ciIncludes opp.title interest ||
    (opp.skills_required.any fun skill => ciIncludes skill interest) ||
    (match opp.domain with
     | some ds => ds.any fun d => ciIncludes d interest
     | none => false)

/-- Raw rule-based score and reasons for one opportunity candidate. -/
def ruleOppScore (user : User) (opp : OppC) : ℚ × List Reason :=
  let s0 : ℚ := 1/2
  let r0 : List Reason := []
  let matching := oppMatchingInterests user opp
  let step1 : ℚ × List Reason :=
    if user.interests.length > 0 ∧ matching.length > 0 then
      (s0 + ((matching.length : ℚ) / (user.interests.length : ℚ)) * (3/10),
       r0 ++ [⟨"Matches your interests", 3/10⟩])
    else (s0, r0)
  let step2 : ℚ × List Reason :=
    if opp.otype = "internship" then
      let a : ℚ × List Reason :=
        if opp.degree_required.contains user.education.degree ∨
            opp.degree_required.contains "Any" then
          (step1.1 + 1/5, step1.2 ++ [⟨"Suitable for your degree", 1/5⟩])
        else step1
      if opp.year_of_study.contains user.education.year ∨
          opp.year_of_study.contains 0 then
        (a.1 + 1/5, a.2 ++ [⟨"Perfect for your year", 1/5⟩])
      else a
    else step1
  if opp.application_count > 50 then
    (step2.1 + 1/10, step2.2 ++ [⟨"Popular opportunity", 1/10⟩])
  else step2

/-- The rule-based recommendation generator of the service
(`RecommendationService.generateRuleBasedRecommendations`).  The candidate
pools (active exams with a future event / active opportunities with a future
deadline) are passed in as the database would return them. -/
def generateRuleBasedRecommendations (user : User)
    (examPool : List ExamC) (oppPool : List OppC) : List Rec :=
  if user.role = "school" then
    examPool.filterMap fun exam =>
      let sr := ruleExamScore user exam
      if sr.1 > 3/5 then
        some { user_id := user.id, entity_type := .exam, entity_id := exam.id,
               score := min sr.1 1, algorithm_used := .rule_based,
               recommendation_reasons := sr.2 }
      else none
  else
    oppPool.filterMap fun opp =>
      let sr := ruleOppScore user opp
      if sr.1 > 3/5 then
        some { user_id := user.id, entity_type := .opportunity, entity_id := opp.id,
               score := min sr.1 1, algorithm_used := .rule_based,
               recommendation_reasons := sr.2 }
      else none

/-! ## Content-based scorer (`generateContentBasedRecommendations`) -/

/-- The aggregated preference sets built by `analyzeUserPreferences`
(converted from `Set` to `Array` in the source). -/
structure Preferences where
  subjects : List String
  skills : List String
  domains : List String
  examTypes : List String
  companies : List String
  organizers : List String
deriving DecidableEq, Repr

/-- A generic item for `calculateContentSimilarity`: an exam or opportunity
document, with `Option` marking which fields the document carries.  A present
empty array is `some []` (truthy in JavaScript). -/
structure Item where
  id : Nat
  subjects : Option (List String)
  skills_required : Option (List String)
  domain : Option (List String)
  company : Option String
  organizer : Option String
deriving DecidableEq, Repr

/-- NaN-propagating addition on `Option ℚ` (`none` models `NaN`). -/
def addNum : Option ℚ → Option ℚ → Option ℚ
  | some a, some b => some (a + b)
  | _, _ => none

/-- The per-facet overlap term `matching.length / candidate.length`,
which is `NaN` (`none`) when the candidate facet list is empty. -/
def overlapFrac (cand pref : List String) : Option ℚ :=
  if cand.length = 0 then none
  else some (((cand.filter fun s => pref.contains s).length : ℚ) / (cand.length : ℚ))

/-- One list-valued facet step of `calculateContentSimilarity`: when the
candidate carries the facet, add `ratio * w` to the running score (NaN
propagating) and `w` to the running weight. -/
def listFacetStep (facet : Option (List String)) (prefList : List String)
    (w : ℚ) (acc : Option ℚ × ℚ) : Option ℚ × ℚ :=
  match facet with
  | some cand =>
      (addNum acc.1 ((overlapFrac cand prefList).map (· * w)), acc.2 + w)
  | none => acc

/-- One scalar facet step (company / organizer): both the `0.1` score bonus
and the `0.1` weight are added only when the field is truthy *and* exactly
matches a preference entry. -/
def scalarFacetStep (field : Option String) (prefList : List String)
    (w : ℚ) (acc : Option ℚ × ℚ) : Option ℚ × ℚ :=
  match field with
  | some s =>
      if s ≠ "" ∧ prefList.contains s then (addNum acc.1 (some w), acc.2 + w)
      else acc
  | none => acc

/-- The running `(score, totalWeight)` pair of `calculateContentSimilarity`
after all five facet steps. -/
def similarityAcc (item : Item) (prefs : Preferences) : Option ℚ × ℚ :=
  scalarFacetStep item.organizer prefs.organizers (1/10)
    (scalarFacetStep item.company prefs.companies (1/10)
      (listFacetStep item.domain prefs.domains (1/5)
        (listFacetStep item.skills_required prefs.skills (3/10)
          (listFacetStep item.subjects prefs.subjects (2/5) (some 0, 0)))))

/-- `calculateContentSimilarity`: the weighted score divided by the total
weight actually accumulated, `0` when no facet was applicable, `NaN`
(`none`) when a present facet list was empty. -/
def calculateContentSimilarity (item : Item) (prefs : Preferences) : Option ℚ :=
  let acc := similarityAcc item prefs
  if acc.2 > 0 then acc.1.map (· / acc.2) else some 0

/-- The emission loop shared by the two branches of
`generateContentBasedRecommendations`: keep the candidates whose similarity
is a real number strictly greater than `0.7` (a `NaN` similarity fails the
`> 0.7` comparison in JavaScript). -/
def cbEmit (userId : Nat) (etype : EntityType) (reasons : List Reason)
    (prefs : Preferences) (pool : List Item) : List Rec :=
  pool.filterMap fun item =>
    match calculateContentSimilarity item prefs with
    | some s =>
        if s > 7/10 then
          some { user_id := userId, entity_type := etype, entity_id := item.id,
                 score := s, algorithm_used := .content_based,
                 recommendation_reasons := reasons }
        else none
    | none => none

/-- `generateContentBasedRecommendations`.  The similar-item pools returned
by `findSimilarExams` / `findSimilarOpportunities` are passed in as the
database would return them. -/
def generateContentBasedRecommendations (user : User) (prefs : Preferences)
    (similarExams similarOpportunities : List Item) : List Rec :=
  if user.role = "school" ∧ user.saved_exams.length > 0 then
    cbEmit user.id .exam
      [⟨"Similar to your saved exams", 2/5⟩, ⟨"Matches your preferences", 3/10⟩]
      prefs similarExams
  else if user.role = "university" ∧
      (user.saved_hackathons ++ user.saved_internships).length > 0 then
    cbEmit user.id .opportunity
      [⟨"Similar to your saved opportunities", 2/5⟩, ⟨"Matches your preferences", 3/10⟩]
      prefs similarOpportunities
  else []

/-! ## Collaborative filtering (`generateCollaborativeFilteringRecommendations`) -/

/-- Neighbour discovery: `User.findByInterests(user.preferences.interests)`
(`preferences.interests $in interests`, `is_active: true`) composed with
`_id ≠ user._id` and `limit(20)`, over the user collection in database
order. -/
def similarUsersOf (user : User) (allUsers : List User) : List User :=
  (allUsers.filter fun u =>
    u.id ≠ user.id ∧ u.is_active ∧
    u.interests.any fun i => user.interests.contains i).take 20

/-- First-occurrence deduplication of a list of ids, modelling the insertion
order of the `popularExams` / `popularOpportunities` accumulator object. -/
def dedupFirst : List Nat → List Nat :=
  go []
where
  /-- Tail of `dedupFirst`, carrying the ids already seen. -/
  go : List Nat → List Nat → List Nat
  | _, [] => []
  | seen, x :: xs =>
      if seen.contains x then go seen xs else x :: go (x :: seen) xs

/-- The learner-saved test of the opportunity branch,
`[...(user.saved_hackathons || []), ...(user.saved_internships || [])]
  .includes(opportunity._id)`: the spread produces a *plain* JavaScript
array of the stored ObjectId instances, and `Array.prototype.includes`
compares objects by SameValueZero — reference equality — against an `_id`
instance belonging to a different (populated) document, so the test never
matches and the exclusion is inert. -/
def plainArrayIncludesId (_saved : List Nat) (_eid : Nat) : Bool := false

/-- The co-occurrence emission loop shared by the two branches: for each
distinct id in the neighbours' pooled saved list, with occurrence count at
least 2 and passing the branch's learner-saved test, emit a record scored
`min(count / nSim, 1.0)`.  The saved test is the branch's own: a value-based
`MongooseArray#includes` in the exam branch, the inert plain-array test in
the opportunity branch. -/
def collabEmit (userId : Nat) (etype : EntityType) (pool : List Nat)
    (savedCheck : Nat → Bool) (nSim : Nat) : List Rec :=
  (dedupFirst pool).filterMap fun eid =>
    if pool.count eid ≥ 2 ∧ ¬ savedCheck eid then
      some { user_id := userId, entity_type := etype, entity_id := eid,
             score := min ((pool.count eid : ℚ) / (nSim : ℚ)) 1,
             algorithm_used := .collaborative_filtering,
             recommendation_reasons := [⟨"Popular among users like you", 1/2⟩] }
    else none

/-- `generateCollaborativeFilteringRecommendations`, over the user collection
passed in database order.  In the exam branch `user.saved_exams` is a
`MongooseArray`, whose overridden `includes` casts and compares ObjectIds by
value (structural membership); in the opportunity branch the source spreads
the saved lists into a plain array whose `includes` never matches
(`plainArrayIncludesId`). -/
def generateCollaborativeFilteringRecommendations (user : User)
    (allUsers : List User) : List Rec :=
  let similarUsers := similarUsersOf user allUsers
  if similarUsers.length = 0 then []
  else if user.role = "school" then
    collabEmit user.id .exam (similarUsers.flatMap (·.saved_exams))
      (fun eid => user.saved_exams.contains eid) similarUsers.length
  else
    collabEmit user.id .opportunity
      (similarUsers.flatMap fun u => u.saved_hackathons ++ u.saved_internships)
      (fun eid => plainArrayIncludesId
        (user.saved_hackathons ++ user.saved_internships) eid)
      similarUsers.length

/-! ## Hybrid merger (`generateHybridRecommendations`) -/

/-- The deduplication key `` `${rec.entity_type}_${rec.entity_id}` ``. -/
def recKey (r : Rec) : EntityType × Nat := (r.entity_type, r.entity_id)

/-- One step of the `uniqueRecommendations` map fold: a fresh key is appended
(insertion order of a JavaScript `Map`), a repeated key keeps its position and
has its score replaced by the mean of existing and incoming, its strategy
relabelled `hybrid`, and the incoming reasons appended. -/
def mergeInto (acc : List Rec) (r : Rec) : List Rec :=
  if acc.any fun x => recKey x = recKey r then
    acc.map fun x =>
      if recKey x = recKey r then
        { x with score := (x.score + r.score) / 2,
                 algorithm_used := .hybrid,
                 recommendation_reasons :=
                   x.recommendation_reasons ++ r.recommendation_reasons }
      else x
  else acc ++ [r]

/-- Stable insertion for descending sort by score: the inserted element goes
before every element whose score is not strictly greater, preserving the
original order among equal scores (JavaScript `Array.prototype.sort` is
stable). -/
def insertByScore (r : Rec) : List Rec → List Rec
  | [] => [r]
  | x :: xs => if x.score > r.score then x :: insertByScore r xs else r :: x :: xs

/-- Stable descending sort by score, modelling
`.sort((a, b) => b.score - a.score)`. -/
def sortByScoreDesc : List Rec → List Rec
  | [] => []
  | x :: xs => insertByScore x (sortByScoreDesc xs)

/-- `generateHybridRecommendations` applied to the outputs of the three
strategies: concatenate, fold into the keyed map, sort descending by score
and keep the top 50. -/
def hybridMerge (ruleBased contentBased collaborative : List Rec) : List Rec :=
  let allRecommendations := ruleBased ++ contentBased ++ collaborative
  let merged := allRecommendations.foldl mergeInto []
  (sortByScoreDesc merged).take 50

/-- The full hybrid generator: run the three strategies and merge. -/
def generateHybridRecommendations (user : User) (examPool : List ExamC)
    (oppPool : List OppC) (prefs : Preferences)
    (similarExams similarOpportunities : List Item)
    (allUsers : List User) : List Rec :=
  hybridMerge
    (generateRuleBasedRecommendations user examPool oppPool)
    (generateContentBasedRecommendations user prefs similarExams similarOpportunities)
    (generateCollaborativeFilteringRecommendations user allUsers)

/-! ## Recommendation store (`models/Recommendation.js`) and controller -/

/-- A persisted recommendation document, with the interaction state of
`user_interaction` inlined.  Timestamps are abstract `Nat` instants. -/
structure StoredRec where
  id : Nat
  user_id : Nat
  entity_type : EntityType
  entity_id : Nat
  score : ℚ
  algorithm_used : Algorithm
  recommendation_reasons : List Reason
  viewed : Bool
  saved : Bool
  applied : Bool
  viewed_at : Option Nat
  saved_at : Option Nat
  applied_at : Option Nat
  expires_at : Nat
  is_active : Bool
deriving DecidableEq, Repr

/-- 30 days in milliseconds, the expiry window set by the schema default. -/
def thirtyDays : Nat := 30 * 24 * 60 * 60 * 1000

/-- `insertMany`: turn in-flight recommendations into stored documents with
fresh ids, default interaction state, default expiry and `is_active = true`. -/
def mkStored (idStart now : Nat) (recs : List Rec) : List StoredRec :=
  recs.enum.map fun p =>
    { id := idStart + p.1, user_id := p.2.user_id,
      entity_type := p.2.entity_type, entity_id := p.2.entity_id,
      score := p.2.score, algorithm_used := p.2.algorithm_used,
      recommendation_reasons := p.2.recommendation_reasons,
      viewed := false, saved := false, applied := false,
      viewed_at := none, saved_at := none, applied_at := none,
      expires_at := now + thirtyDays, is_active := true }

/-- `Recommendation.updateInteraction` document update: `$set` the flag of
`interactionType` to true and its timestamp to the current instant.  An
unknown interaction type sets no known schema path (strict mode discards
it). -/
def applyInteraction (r : StoredRec) (interactionType : String) (now : Nat) :
    StoredRec :=
  if interactionType = "viewed" then { r with viewed := true, viewed_at := some now }
  else if interactionType = "saved" then { r with saved := true, saved_at := some now }
  else if interactionType = "applied" then
    { r with applied := true, applied_at := some now }
  else r

/-- `Recommendation.updateInteraction` (`findByIdAndUpdate` with `$set`):
looks a document up by id only — active or not — updates it in place and
returns the new document, or `none` when the id is absent. -/
def updateInteraction (store : List StoredRec) (recId : Nat)
    (interactionType : String) (now : Nat) : List StoredRec × Option StoredRec :=
  match store.find? fun r => r.id = recId with
  | none => (store, none)
  | some r =>
      let r2 := applyInteraction r interactionType now
      (store.map fun x => if x.id = recId then r2 else x, some r2)

/-- The HTTP outcome of an API handler, reduced to the three response shapes
the interaction endpoint can produce. -/
inductive ApiResult
  | ok (rec : StoredRec)
  | badRequest (msg : String)
  | notFound (msg : String)
deriving DecidableEq, Repr

/-- The controller handler `updateRecommendationInteraction`: reject an
interaction type outside `['viewed', 'saved', 'applied']` with 400 before
touching the store, answer 404 when `updateInteraction` found no document,
and otherwise return the updated document. -/
def updateRecommendationInteraction (store : List StoredRec) (recId : Nat)
    (interactionType : String) (now : Nat) : List StoredRec × ApiResult :=
  if ¬ (["viewed", "saved", "applied"].contains interactionType) then
    (store, .badRequest "Invalid interaction type")
  else
    match updateInteraction store recId interactionType now with
    | (store2, none) => (store2, .notFound "Recommendation not found")
    | (store2, some r) => (store2, .ok r)

/-! ## Generation runs

Two generation entry points exist in the source: the HTTP controller
`generateRecommendations` (which first runs
`Recommendation.deleteMany({ user_id })` and carries its own inline
rule-based loop), and `RecommendationService.generateRecommendations`
(which dispatches on an algorithm name and inserts with no prior
clearing). -/

/-- Raw score of the controller's inline exam loop: the stream bonus tests
exact membership of `'Physics'`/`'Chemistry'`/`'Maths'` in `exam.subjects`,
and there is no popularity bonus. -/
def ctrlExamScore (user : User) (exam : ExamC) : ℚ :=
  let s0 : ℚ := 1/2
  let s1 : ℚ :=
    if isScienceStream user ∧
        (exam.subjects.contains "Physics" ∨ exam.subjects.contains "Chemistry" ∨
         exam.subjects.contains "Maths") then
      s0 + 3/10
    else s0
  let matching := examMatchingInterests user exam
  if user.interests.length > 0 then
    s1 + ((matching.length : ℚ) / (user.interests.length : ℚ)) * (1/5)
  else s1

/-- Raw score of the controller's inline opportunity loop (no popularity
bonus). -/
def ctrlOppScore (user : User) (opp : OppC) : ℚ :=
  let s0 : ℚ := 1/2
  let matching := oppMatchingInterests user opp
  let s1 : ℚ :=
    if user.interests.length > 0 then
      s0 + ((matching.length : ℚ) / (user.interests.length : ℚ)) * (3/10)
    else s0
  if opp.otype = "internship" then
    let s2 : ℚ :=
      if opp.degree_required.contains user.education.degree ∨
          opp.degree_required.contains "Any" then s1 + 1/5
      else s1
    if opp.year_of_study.contains user.education.year ∨
        opp.year_of_study.contains 0 then s2 + 1/5
    else s2
  else s1

/-- The in-flight recommendations built by the controller's inline loops,
with their fixed two-element reason lists. -/
def ctrlNewRecommendations (user : User) (examPool : List ExamC)
    (oppPool : List OppC) : List Rec :=
  if user.role = "school" then
    examPool.filterMap fun exam =>
      let s := ctrlExamScore user exam
      if s > 3/5 then
        some { user_id := user.id, entity_type := .exam, entity_id := exam.id,
               score := min s 1, algorithm_used := .rule_based,
               recommendation_reasons :=
                 [⟨"Matches your academic stream", 3/10⟩,
                  ⟨"Aligns with your interests", 1/5⟩] }
      else none
  else
    oppPool.filterMap fun opp =>
      let s := ctrlOppScore user opp
      if s > 3/5 then
        some { user_id := user.id, entity_type := .opportunity, entity_id := opp.id,
               score := min s 1, algorithm_used := .rule_based,
               recommendation_reasons :=
                 [⟨"Matches your interests", 3/10⟩,
                  ⟨"Suitable for your degree and year", 1/5⟩] }
      else none

/-- The controller generation endpoint `POST /recommendations/:userId/generate`:
delete every stored recommendation of the user, then insert the newly
generated batch. -/
def controllerGenerate (store : List StoredRec) (user : User)
    (examPool : List ExamC) (oppPool : List OppC) (now idStart : Nat) :
    List StoredRec :=
  let cleared := store.filter fun r => r.user_id ≠ user.id
  cleared ++ mkStored idStart now (ctrlNewRecommendations user examPool oppPool)

/-- `RecommendationService.generateRecommendations`: dispatch on the
algorithm name, throw on an unknown one, and `insertMany` the result without
clearing any previously stored recommendation. -/
def serviceGenerate (store : List StoredRec) (user : User)
    (algorithm : String) (examPool : List ExamC) (oppPool : List OppC)
    (prefs : Preferences) (similarExams similarOpportunities : List Item)
    (allUsers : List User) (now idStart : Nat) :
    Except String (List StoredRec × List Rec) :=
  let run : Except String (List Rec) :=
    if algorithm = "rule_based" then
      .ok (generateRuleBasedRecommendations user examPool oppPool)
    else if algorithm = "content_based" then
      .ok (generateContentBasedRecommendations user prefs similarExams
        similarOpportunities)
    else if algorithm = "collaborative_filtering" then
      .ok (generateCollaborativeFilteringRecommendations user allUsers)
    else if algorithm = "hybrid" then
      .ok (generateHybridRecommendations user examPool oppPool prefs
        similarExams similarOpportunities allUsers)
    else .error "Invalid algorithm specified"
  match run with
  | .error e => .error e
  | .ok recs => .ok (store ++ mkStored idStart now recs, recs)

/-- The identifying triple of a stored recommendation. -/
def storedKey (r : StoredRec) : Nat × EntityType × Nat :=
  (r.user_id, r.entity_type, r.entity_id)

/-- The uniqueness invariant of the spec: among active records, no two share
a `(learner, entity_type, entity_id)` triple. -/
def ActiveKeysUnique (store : List StoredRec) : Prop :=
  (store.filter fun r => r.is_active).Pairwise fun a b => storedKey a ≠ storedKey b

/-! ## General lemmas -/

/-- Rewriting rule for the guarded emission pattern of the scorers. -/
theorem ite_some_none_eq_some {α : Type} {p : Prop} [Decidable p] {a b : α} :
    (if p then some a else none) = some b ↔ p ∧ a = b := by
  split <;> simp_all

/-! ## C6 — strict rule-based emission threshold -/

/-- C6: a rule-based candidate is emitted iff its raw accumulated score
strictly exceeds 0.6; in particular a candidate whose raw score is exactly
0.6 is dropped. -/
theorem claim6_rule_threshold_strict (u : User) (e : ExamC) (o : OppC) :
    (u.role = "school" →
      ((generateRuleBasedRecommendations u [e] [] ≠ []) ↔ 3/5 < (ruleExamScore u e).1))
    ∧ (u.role ≠ "school" →
      ((generateRuleBasedRecommendations u [] [o] ≠ []) ↔ 3/5 < (ruleOppScore u o).1))
    ∧ ((ruleExamScore u e).1 = 3/5 → generateRuleBasedRecommendations u [e] [] = []) := by
  unfold generateRuleBasedRecommendations
  refine ⟨?_, ?_, ?_⟩
  · intro hrole
    rw [if_pos hrole]
    by_cases h : 3/5 < (ruleExamScore u e).1
    · simp [List.filterMap_cons, if_pos h, h]
    · simp [List.filterMap_cons, if_neg h, h]
  · intro hrole
    rw [if_neg hrole]
    by_cases h : 3/5 < (ruleOppScore u o).1
    · simp [List.filterMap_cons, if_pos h, h]
    · simp [List.filterMap_cons, if_neg h, h]
  · intro heq
    by_cases hrole : u.role = "school"
    · rw [if_pos hrole]
      have : ¬ ((ruleExamScore u e).1 > 3/5) := by rw [heq]; exact lt_irrefl _
      simp [List.filterMap_cons, this]
    · rw [if_neg hrole]
      simp

/-- A school learner outside the Science stream with no interests: a
popular exam accumulates exactly the boundary score 0.6. -/
def uBoundary : User :=
  { id := 1, role := "school", is_active := true, school_info := some ⟨"Arts"⟩,
    education := ⟨"BTech", 2⟩, interests := [], saved_exams := [],
    saved_hackathons := [], saved_internships := [] }

/-- A Science-stream school learner with no interests. -/
def uScience : User := { uBoundary with school_info := some ⟨"Science"⟩ }

/-- A popular exam with no science subject: boundary candidate for
`uBoundary`. -/
def eBoundary : ExamC :=
  { id := 10, exam_name := "NTSE", subjects := ["History"], application_count := 150 }

/-- A popular physics exam: scores 0.9 for `uScience`. -/
def ePhysics : ExamC :=
  { id := 11, exam_name := "JEE", subjects := ["Physics"], application_count := 150 }

/-- An arbitrary opportunity used to instantiate unused arguments. -/
def oDummy : OppC :=
  { id := 20, title := "Hack", otype := "hackathon", skills_required := [],
    domain := none, degree_required := [], year_of_study := [],
    application_count := 0 }

/-- Witness for C6: the boundary candidate scores exactly 0.6 and is
excluded, while a 0.9-scoring candidate is included. -/
theorem claim6_witness :
    (ruleExamScore uBoundary eBoundary).1 = 3/5
    ∧ generateRuleBasedRecommendations uBoundary [eBoundary] [] = []
    ∧ generateRuleBasedRecommendations uScience [ePhysics] [] ≠ [] := by
  have hb : (ruleExamScore uBoundary eBoundary).1 = 3/5 := by
    simp +decide only [ruleExamScore]
    norm_num
  have hs : 3/5 < (ruleExamScore uScience ePhysics).1 := by
    simp +decide only [ruleExamScore]
    norm_num
  exact ⟨hb, (claim6_rule_threshold_strict uBoundary eBoundary oDummy).2.2 hb,
    ((claim6_rule_threshold_strict uScience ePhysics oDummy).1 rfl).mpr hs⟩

/-! ## C9 — behaviour on empty interests and empty saved lists -/

/-- With empty interests the exam score never carries the interest reason. -/
theorem ruleExamScore_reasons_no_interest (u : User) (e : ExamC)
    (h : u.interests = []) :
    ∀ rs ∈ (ruleExamScore u e).2, rs.reason ≠ "Aligns with your interests" := by
  have hc : ¬ (u.interests.length > 0 ∧ (examMatchingInterests u e).length > 0) := by
    simp [h]
  simp only [ruleExamScore]
  rw [if_neg hc]
  split_ifs <;> simp

/-- With empty interests the opportunity score never carries the interest
reason. -/
theorem ruleOppScore_reasons_no_interest (u : User) (o : OppC)
    (h : u.interests = []) :
    ∀ rs ∈ (ruleOppScore u o).2, rs.reason ≠ "Matches your interests" := by
  have hc : ¬ (u.interests.length > 0 ∧ (oppMatchingInterests u o).length > 0) := by
    simp [h]
  simp only [ruleOppScore]
  rw [if_neg hc]
  split_ifs <;> simp

/-- The possible reason strings of the exam rule scorer. -/
theorem ruleExamScore_reason_strings (u : User) (e : ExamC) :
    ∀ rs ∈ (ruleExamScore u e).2,
      rs.reason = "Matches your Science stream"
      ∨ rs.reason = "Aligns with your interests"
      ∨ rs.reason = "Popular among students" := by
  simp only [ruleExamScore]
  split_ifs <;> intro rs hrs <;> simp_all <;> aesop

/-- The possible reason strings of the opportunity rule scorer. -/
theorem ruleOppScore_reason_strings (u : User) (o : OppC) :
    ∀ rs ∈ (ruleOppScore u o).2,
      rs.reason = "Matches your interests"
      ∨ rs.reason = "Suitable for your degree"
      ∨ rs.reason = "Perfect for your year"
      ∨ rs.reason = "Popular opportunity" := by
  simp only [ruleOppScore]
  split_ifs <;> intro rs hrs <;> simp_all <;> aesop

/-- C9 (amended): with empty interests and empty saved lists, the
content-based scorer returns the empty list for every preference aggregate
and candidate pool, and the rule-based scorer never applies the interest
bonus — but, contrary to the original claim, the rule-based scorer may
still emit candidates via the stream/eligibility/popularity bonuses. -/
theorem claim9_empty_profile_amended (user : User)
    (hint : user.interests = []) (hse : user.saved_exams = [])
    (hsh : user.saved_hackathons = []) (hsi : user.saved_internships = []) :
    (∀ prefs p1 p2, generateContentBasedRecommendations user prefs p1 p2 = [])
    ∧ (∀ ep op r, r ∈ generateRuleBasedRecommendations user ep op →
        ∀ rs ∈ r.recommendation_reasons,
          rs.reason ≠ "Aligns with your interests"
          ∧ rs.reason ≠ "Matches your interests") := by
  constructor
  · intro prefs p1 p2
    simp [generateContentBasedRecommendations, hse, hsh, hsi]
  · intro ep op r hr rs hrs
    unfold generateRuleBasedRecommendations at hr
    split at hr
    · obtain ⟨e, _, hfe⟩ := List.mem_filterMap.mp hr
      obtain ⟨_, hrec⟩ := ite_some_none_eq_some.mp hfe
      subst hrec
      refine ⟨ruleExamScore_reasons_no_interest user e hint rs hrs, ?_⟩
      have hall : rs.reason = "Matches your Science stream"
          ∨ rs.reason = "Aligns with your interests"
          ∨ rs.reason = "Popular among students" :=
        ruleExamScore_reason_strings user e rs hrs
      have hni := ruleExamScore_reasons_no_interest user e hint rs hrs
      rcases hall with h1 | h1 | h1 <;> simp [h1] at hni ⊢
    · obtain ⟨o, _, hfo⟩ := List.mem_filterMap.mp hr
      obtain ⟨_, hrec⟩ := ite_some_none_eq_some.mp hfo
      subst hrec
      refine ⟨?_, ruleOppScore_reasons_no_interest user o hint rs hrs⟩
      have hall : rs.reason = "Matches your interests"
          ∨ rs.reason = "Suitable for your degree"
          ∨ rs.reason = "Perfect for your year"
          ∨ rs.reason = "Popular opportunity" :=
        ruleOppScore_reason_strings user o rs hrs
      have hni := ruleOppScore_reasons_no_interest user o hint rs hrs
      rcases hall with h1 | h1 | h1 | h1 <;> simp [h1] at hni ⊢

/-- Counterexample to C9 as stated: `uScience` has empty interests and empty
saved lists, yet the rule-based scorer emits a recommendation for a popular
physics exam (stream and popularity bonuses alone reach 0.9 > 0.6). -/
theorem claim9_counterexample :
    uScience.interests = [] ∧ uScience.saved_exams = []
    ∧ uScience.saved_hackathons = [] ∧ uScience.saved_internships = []
    ∧ generateRuleBasedRecommendations uScience [ePhysics] [] ≠ [] := by
  refine ⟨rfl, rfl, rfl, rfl, ?_⟩
  simp +decide only [generateRuleBasedRecommendations, List.filterMap_cons,
    ruleExamScore]
  norm_num

/-- Witness for the amended C9, instantiated at `uScience`. -/
theorem claim9_witness :
    generateContentBasedRecommendations uScience
      ⟨[], [], [], [], [], []⟩ [] [] = [] :=
  (claim9_empty_profile_amended uScience rfl rfl rfl rfl).1
    ⟨[], [], [], [], [], []⟩ [] []

/-! ## C10 — present-but-empty facet lists produce NaN, never emitted -/

/-- A `NaN` running score stays `NaN` through a list facet step. -/
theorem listFacetStep_fst_none (f : Option (List String)) (p : List String)
    (w : ℚ) (acc : Option ℚ × ℚ) (h : acc.1 = none) :
    (listFacetStep f p w acc).1 = none := by
  cases f <;> simp [listFacetStep, h, addNum]

/-- A `NaN` running score stays `NaN` through a scalar facet step. -/
theorem scalarFacetStep_fst_none (f : Option String) (p : List String)
    (w : ℚ) (acc : Option ℚ × ℚ) (h : acc.1 = none) :
    (scalarFacetStep f p w acc).1 = none := by
  cases f with
  | none => simpa [scalarFacetStep] using h
  | some s =>
      simp only [scalarFacetStep]
      split <;> simp [h, addNum]

/-- A present empty facet list turns the running score into `NaN` while
still adding its weight. -/
theorem listFacetStep_empty (p : List String) (w : ℚ) (acc : Option ℚ × ℚ) :
    listFacetStep (some []) p w acc = (none, acc.2 + w) := by
  cases h : acc.1 <;> simp [listFacetStep, overlapFrac, addNum, h]

/-- List facet steps never decrease the accumulated weight (the weights used
are nonnegative). -/
theorem listFacetStep_snd_le (f : Option (List String)) (p : List String)
    (w : ℚ) (acc : Option ℚ × ℚ) (hw : 0 ≤ w) :
    acc.2 ≤ (listFacetStep f p w acc).2 := by
  cases f <;> simp [listFacetStep] <;> linarith

/-- Scalar facet steps never decrease the accumulated weight. -/
theorem scalarFacetStep_snd_le (f : Option String) (p : List String)
    (w : ℚ) (acc : Option ℚ × ℚ) (hw : 0 ≤ w) :
    acc.2 ≤ (scalarFacetStep f p w acc).2 := by
  cases f with
  | none => simp [scalarFacetStep]
  | some s =>
      simp only [scalarFacetStep]
      split <;> simp <;> linarith

/-- List facet steps keep the accumulated weight nonnegative. -/
theorem listFacetStep_snd_nonneg (f : Option (List String)) (p : List String)
    (w : ℚ) (acc : Option ℚ × ℚ) (hw : 0 ≤ w) (hacc : 0 ≤ acc.2) :
    0 ≤ (listFacetStep f p w acc).2 :=
  le_trans hacc (listFacetStep_snd_le f p w acc hw)

/-- On an item carrying a present-but-empty subjects, skills or domain list,
the accumulator ends with a `NaN` score and a strictly positive weight. -/
theorem similarityAcc_empty_facet (item : Item) (prefs : Preferences)
    (h : item.subjects = some [] ∨ item.skills_required = some []
       ∨ item.domain = some []) :
    (similarityAcc item prefs).1 = none ∧ 0 < (similarityAcc item prefs).2 := by
  unfold similarityAcc
  rcases h with h | h | h
  · rw [h]
    set a1 := listFacetStep (some []) prefs.subjects (2/5) (some 0, 0) with ha1
    have h1 : a1 = (none, 0 + 2/5) := listFacetStep_empty _ _ _
    set a2 := listFacetStep item.skills_required prefs.skills (3/10) a1 with ha2
    have h2f : a2.1 = none := listFacetStep_fst_none _ _ _ _ (by rw [h1])
    have h2s : a1.2 ≤ a2.2 := listFacetStep_snd_le _ _ _ _ (by norm_num)
    set a3 := listFacetStep item.domain prefs.domains (1/5) a2 with ha3
    have h3f : a3.1 = none := listFacetStep_fst_none _ _ _ _ h2f
    have h3s : a2.2 ≤ a3.2 := listFacetStep_snd_le _ _ _ _ (by norm_num)
    set a4 := scalarFacetStep item.company prefs.companies (1/10) a3 with ha4
    have h4f : a4.1 = none := scalarFacetStep_fst_none _ _ _ _ h3f
    have h4s : a3.2 ≤ a4.2 := scalarFacetStep_snd_le _ _ _ _ (by norm_num)
    have h5f : (scalarFacetStep item.organizer prefs.organizers (1/10) a4).1 = none :=
      scalarFacetStep_fst_none _ _ _ _ h4f
    have h5s : a4.2 ≤ (scalarFacetStep item.organizer prefs.organizers (1/10) a4).2 :=
      scalarFacetStep_snd_le _ _ _ _ (by norm_num)
    refine ⟨h5f, ?_⟩
    have : a1.2 = 2/5 := by rw [h1]; norm_num
    linarith
  · rw [h]
    set a1 := listFacetStep item.subjects prefs.subjects (2/5) (some 0, 0) with ha1
    have h1s : (0:ℚ) ≤ a1.2 :=
      listFacetStep_snd_nonneg _ _ _ _ (by norm_num) (by norm_num)
    set a2 := listFacetStep (some []) prefs.skills (3/10) a1 with ha2
    have h2 : a2 = (none, a1.2 + 3/10) := listFacetStep_empty _ _ _
    set a3 := listFacetStep item.domain prefs.domains (1/5) a2 with ha3
    have h3f : a3.1 = none := listFacetStep_fst_none _ _ _ _ (by rw [h2])
    have h3s : a2.2 ≤ a3.2 := listFacetStep_snd_le _ _ _ _ (by norm_num)
    set a4 := scalarFacetStep item.company prefs.companies (1/10) a3 with ha4
    have h4f : a4.1 = none := scalarFacetStep_fst_none _ _ _ _ h3f
    have h4s : a3.2 ≤ a4.2 := scalarFacetStep_snd_le _ _ _ _ (by norm_num)
    have h5f : (scalarFacetStep item.organizer prefs.organizers (1/10) a4).1 = none :=
      scalarFacetStep_fst_none _ _ _ _ h4f
    have h5s : a4.2 ≤ (scalarFacetStep item.organizer prefs.organizers (1/10) a4).2 :=
      scalarFacetStep_snd_le _ _ _ _ (by norm_num)
    refine ⟨h5f, ?_⟩
    have : a2.2 = a1.2 + 3/10 := by rw [h2]
    linarith
  · rw [h]
    set a1 := listFacetStep item.subjects prefs.subjects (2/5) (some 0, 0) with ha1
    have h1s : (0:ℚ) ≤ a1.2 :=
      listFacetStep_snd_nonneg _ _ _ _ (by norm_num) (by norm_num)
    set a2 := listFacetStep item.skills_required prefs.skills (3/10) a1 with ha2
    have h2s : a1.2 ≤ a2.2 := listFacetStep_snd_le _ _ _ _ (by norm_num)
    set a3 := listFacetStep (some []) prefs.domains (1/5) a2 with ha3
    have h3 : a3 = (none, a2.2 + 1/5) := listFacetStep_empty _ _ _
    set a4 := scalarFacetStep item.company prefs.companies (1/10) a3 with ha4
    have h4f : a4.1 = none := scalarFacetStep_fst_none _ _ _ _ (by rw [h3])
    have h4s : a3.2 ≤ a4.2 := scalarFacetStep_snd_le _ _ _ _ (by norm_num)
    have h5f : (scalarFacetStep item.organizer prefs.organizers (1/10) a4).1 = none :=
      scalarFacetStep_fst_none _ _ _ _ h4f
    have h5s : a4.2 ≤ (scalarFacetStep item.organizer prefs.organizers (1/10) a4).2 :=
      scalarFacetStep_snd_le _ _ _ _ (by norm_num)
    refine ⟨h5f, ?_⟩
    have : a3.2 = a2.2 + 1/5 := by rw [h3]
    linarith

/-- C10: an item with a present-but-empty subjects, skills or domain list
has `NaN` similarity, so the content-based scorer silently skips it in every
candidate pool — it neither emits it nor errors. -/
theorem claim10_empty_facet_never_emitted (item : Item) (prefs : Preferences)
    (h : item.subjects = some [] ∨ item.skills_required = some []
       ∨ item.domain = some []) :
    calculateContentSimilarity item prefs = none
    ∧ (∀ uid et rs l1 l2,
        cbEmit uid et rs prefs (l1 ++ item :: l2) = cbEmit uid et rs prefs (l1 ++ l2))
    ∧ (∀ user l1 l2 p2,
        generateContentBasedRecommendations user prefs (l1 ++ item :: l2) p2
          = generateContentBasedRecommendations user prefs (l1 ++ l2) p2)
    ∧ (∀ user p1 l1 l2,
        generateContentBasedRecommendations user prefs p1 (l1 ++ item :: l2)
          = generateContentBasedRecommendations user prefs p1 (l1 ++ l2)) := by
  obtain ⟨hnone, hpos⟩ := similarityAcc_empty_facet item prefs h
  have hsim : calculateContentSimilarity item prefs = none := by
    simp [calculateContentSimilarity, hpos, hnone]
  have hemit : ∀ uid et rs l1 l2,
      cbEmit uid et rs prefs (l1 ++ item :: l2) = cbEmit uid et rs prefs (l1 ++ l2) := by
    intro uid et rs l1 l2
    simp only [cbEmit, List.filterMap_append, List.filterMap_cons, hsim]
  refine ⟨hsim, hemit, ?_, ?_⟩
  · intro user l1 l2 p2
    unfold generateContentBasedRecommendations
    split_ifs with h1 h2
    · exact hemit _ _ _ _ _
    · rfl
    · rfl
  · intro user p1 l1 l2
    unfold generateContentBasedRecommendations
    split_ifs with h1 h2
    · rfl
    · exact hemit _ _ _ _ _
    · rfl

/-- An item carrying an empty subjects array. -/
def itemEmptySubjects : Item :=
  { id := 8, subjects := some [], skills_required := none, domain := none,
    company := none, organizer := none }

/-- An empty preference aggregate. -/
def prefsEmpty : Preferences := ⟨[], [], [], [], [], []⟩

/-- Witness for C10 at a concrete item with a present empty subjects list. -/
theorem claim10_witness :
    calculateContentSimilarity itemEmptySubjects prefsEmpty = none
    ∧ cbEmit 1 .exam [] prefsEmpty ([] ++ itemEmptySubjects :: [])
        = cbEmit 1 .exam [] prefsEmpty ([] ++ []) :=
  ⟨(claim10_empty_facet_never_emitted itemEmptySubjects prefsEmpty (.inl rfl)).1,
   (claim10_empty_facet_never_emitted itemEmptySubjects prefsEmpty (.inl rfl)).2.1
     1 .exam [] [] []⟩

/-! ## C2 — every generated score lies in [0, 1] -/

/-- The raw exam rule score is nonnegative (it starts at 1/2 and only adds
nonnegative bonuses). -/
theorem ruleExamScore_fst_nonneg (u : User) (e : ExamC) :
    0 ≤ (ruleExamScore u e).1 := by
  simp only [ruleExamScore]
  split_ifs <;> simp <;> positivity

/-- The raw opportunity rule score is nonnegative. -/
theorem ruleOppScore_fst_nonneg (u : User) (o : OppC) :
    0 ≤ (ruleOppScore u o).1 := by
  simp only [ruleOppScore]
  split_ifs <;> simp <;> positivity

/-- A real overlap ratio lies in [0, 1]. -/
theorem overlapFrac_bounds (cand pref : List String) (q : ℚ)
    (h : overlapFrac cand pref = some q) : 0 ≤ q ∧ q ≤ 1 := by
  unfold overlapFrac at h
  split_ifs at h with hlen
  obtain rfl : ((cand.filter fun s => pref.contains s).length : ℚ) / (cand.length : ℚ) = q := by
    simpa using h
  have hpos : (0:ℚ) < (cand.length : ℚ) := by
    exact_mod_cast Nat.pos_of_ne_zero hlen
  constructor
  · positivity
  · rw [div_le_one hpos]
    exact_mod_cast List.length_filter_le _ cand

/-- The invariant carried through the similarity accumulator: the weight is
nonnegative and a real running score is between 0 and the weight. -/
def AccBounded (acc : Option ℚ × ℚ) : Prop :=
  0 ≤ acc.2 ∧ ∀ v, acc.1 = some v → 0 ≤ v ∧ v ≤ acc.2

/-- List facet steps preserve the accumulator invariant. -/
theorem listFacetStep_bounded (f : Option (List String)) (p : List String)
    (w : ℚ) (acc : Option ℚ × ℚ) (hw : 0 ≤ w) (h : AccBounded acc) :
    AccBounded (listFacetStep f p w acc) := by
  obtain ⟨h2, h1⟩ := h
  cases f with
  | none => exact ⟨h2, h1⟩
  | some cand =>
      refine ⟨by simp [listFacetStep]; linarith, ?_⟩
      intro v hv
      simp only [listFacetStep] at hv ⊢
      cases hacc : acc.1 with
      | none => simp [hacc, addNum] at hv
      | some v0 =>
          cases hfrac : overlapFrac cand p with
          | none => simp [hacc, hfrac, addNum] at hv
          | some q =>
              obtain ⟨hq0, hq1⟩ := overlapFrac_bounds cand p q hfrac
              obtain ⟨hv0, hvw⟩ := h1 v0 hacc
              rw [hacc, hfrac] at hv
              obtain rfl : v0 + q * w = v := by
                simpa [addNum] using hv
              constructor
              · nlinarith
              · nlinarith

/-- Scalar facet steps preserve the accumulator invariant. -/
theorem scalarFacetStep_bounded (f : Option String) (p : List String)
    (w : ℚ) (acc : Option ℚ × ℚ) (hw : 0 ≤ w) (h : AccBounded acc) :
    AccBounded (scalarFacetStep f p w acc) := by
  obtain ⟨h2, h1⟩ := h
  cases f with
  | none => exact ⟨h2, h1⟩
  | some s =>
      simp only [scalarFacetStep]
      split_ifs with hc
      · refine ⟨by simp; linarith, ?_⟩
        intro v hv
        cases hacc : acc.1 with
        | none => simp [hacc, addNum] at hv
        | some v0 =>
            obtain ⟨hv0, hvw⟩ := h1 v0 hacc
            simp only [hacc, addNum, Option.some.injEq] at hv
            subst hv
            exact ⟨by linarith, by simp; linarith⟩
      · exact ⟨h2, h1⟩

/-- The full similarity accumulator satisfies the invariant. -/
theorem similarityAcc_bounded (item : Item) (prefs : Preferences) :
    AccBounded (similarityAcc item prefs) := by
  unfold similarityAcc
  refine scalarFacetStep_bounded _ _ _ _ (by norm_num)
    (scalarFacetStep_bounded _ _ _ _ (by norm_num)
      (listFacetStep_bounded _ _ _ _ (by norm_num)
        (listFacetStep_bounded _ _ _ _ (by norm_num)
          (listFacetStep_bounded _ _ _ _ (by norm_num) ?_))))
  refine ⟨le_refl 0, ?_⟩
  intro v hv
  simp only [Option.some.injEq] at hv
  subst hv
  exact ⟨le_refl 0, le_refl 0⟩

/-- A real content similarity lies in [0, 1]. -/
theorem calculateContentSimilarity_unit (item : Item) (prefs : Preferences)
    (s : ℚ) (h : calculateContentSimilarity item prefs = some s) :
    0 ≤ s ∧ s ≤ 1 := by
  obtain ⟨hw, hb⟩ := similarityAcc_bounded item prefs
  unfold calculateContentSimilarity at h
  dsimp only at h
  split_ifs at h with hpos
  · cases hacc : (similarityAcc item prefs).1 with
    | none => simp [hacc] at h
    | some v =>
        obtain ⟨hv0, hvw⟩ := hb v hacc
        rw [hacc] at h
        obtain rfl : v / (similarityAcc item prefs).2 = s := by simpa using h
        constructor
        · positivity
        · rw [div_le_one hpos]
          exact hvw
  · obtain rfl : (0:ℚ) = s := by simpa using h
    norm_num

/-- Inserting into the stable descending sort is a permutation of consing. -/
theorem insertByScore_perm (r : Rec) (l : List Rec) :
    (insertByScore r l).Perm (r :: l) := by
  induction l with
  | nil => simp [insertByScore]
  | cons x xs ih =>
      simp only [insertByScore]
      split_ifs
      · exact (ih.cons x).trans (List.Perm.swap r x xs)
      · exact List.Perm.refl _

/-- The stable sort is a permutation of its input. -/
theorem sortByScoreDesc_perm (l : List Rec) : (sortByScoreDesc l).Perm l := by
  induction l with
  | nil => simp [sortByScoreDesc]
  | cons x xs ih =>
      exact (insertByScore_perm x (sortByScoreDesc xs)).trans (ih.cons x)

/-- Everything in the merge accumulator keeps a score in [0, 1] when all
incoming scores are in [0, 1]. -/
theorem mergeInto_score_mem (acc : List Rec) (r : Rec)
    (hacc : ∀ x ∈ acc, 0 ≤ x.score ∧ x.score ≤ 1)
    (hr : 0 ≤ r.score ∧ r.score ≤ 1) :
    ∀ x ∈ mergeInto acc r, 0 ≤ x.score ∧ x.score ≤ 1 := by
  intro x hx
  unfold mergeInto at hx
  split_ifs at hx with hkey
  · obtain ⟨y, hy, hxy⟩ := List.mem_map.mp hx
    obtain ⟨hy0, hy1⟩ := hacc y hy
    by_cases hk : recKey y = recKey r
    · rw [if_pos hk] at hxy
      subst hxy
      constructor
      · simp only
        linarith [hr.1]
      · simp only
        linarith [hr.2]
    · rw [if_neg hk] at hxy
      subst hxy
      exact ⟨hy0, hy1⟩
  · rcases List.mem_append.mp hx with hxl | hxr
    · exact hacc x hxl
    · obtain rfl : x = r := by simpa using hxr
      exact hr

/-- The merge fold keeps every score in [0, 1]. -/
theorem foldl_mergeInto_score_mem (l : List Rec) (acc : List Rec)
    (hacc : ∀ x ∈ acc, 0 ≤ x.score ∧ x.score ≤ 1)
    (hl : ∀ x ∈ l, 0 ≤ x.score ∧ x.score ≤ 1) :
    ∀ x ∈ l.foldl mergeInto acc, 0 ≤ x.score ∧ x.score ≤ 1 := by
  induction l generalizing acc with
  | nil => simpa using hacc
  | cons y ys ih =>
      simp only [List.foldl_cons]
      exact ih (mergeInto acc y)
        (mergeInto_score_mem acc y hacc (hl y (by simp)))
        (fun x hx => hl x (by simp [hx]))

/-- Scores surviving the hybrid merge come from the fold and stay in
[0, 1]. -/
theorem hybridMerge_score_mem (l1 l2 l3 : List Rec)
    (h : ∀ x ∈ l1 ++ l2 ++ l3, 0 ≤ x.score ∧ x.score ≤ 1) :
    ∀ x ∈ hybridMerge l1 l2 l3, 0 ≤ x.score ∧ x.score ≤ 1 := by
  intro x hx
  unfold hybridMerge at hx
  have hx2 : x ∈ sortByScoreDesc ((l1 ++ l2 ++ l3).foldl mergeInto []) :=
    (List.take_sublist _ _).subset hx
  have hx3 : x ∈ (l1 ++ l2 ++ l3).foldl mergeInto [] :=
    (sortByScoreDesc_perm _).mem_iff.mp hx2
  exact foldl_mergeInto_score_mem _ [] (by simp) h x hx3

/-- C2: every record produced by any of the four generators carries a score
in [0, 1]. -/
theorem claim2_scores_in_unit_interval :
    (∀ (u : User) (ep : List ExamC) (op : List OppC) (r : Rec),
      r ∈ generateRuleBasedRecommendations u ep op → 0 ≤ r.score ∧ r.score ≤ 1)
    ∧ (∀ (u : User) (prefs : Preferences) (p1 p2 : List Item) (r : Rec),
      r ∈ generateContentBasedRecommendations u prefs p1 p2 →
        0 ≤ r.score ∧ r.score ≤ 1)
    ∧ (∀ (u : User) (au : List User) (r : Rec),
      r ∈ generateCollaborativeFilteringRecommendations u au →
        0 ≤ r.score ∧ r.score ≤ 1)
    ∧ (∀ (u : User) (ep : List ExamC) (op : List OppC) (prefs : Preferences)
        (p1 p2 : List Item) (au : List User) (r : Rec),
      r ∈ generateHybridRecommendations u ep op prefs p1 p2 au →
        0 ≤ r.score ∧ r.score ≤ 1) := by
  have hrule : ∀ (u : User) (ep : List ExamC) (op : List OppC) (r : Rec),
      r ∈ generateRuleBasedRecommendations u ep op → 0 ≤ r.score ∧ r.score ≤ 1 := by
    intro u ep op r hr
    unfold generateRuleBasedRecommendations at hr
    split_ifs at hr
    · obtain ⟨e, _, hfe⟩ := List.mem_filterMap.mp hr
      obtain ⟨_, hrec⟩ := ite_some_none_eq_some.mp hfe
      subst hrec
      exact ⟨le_min (ruleExamScore_fst_nonneg u e) (by norm_num), min_le_right _ _⟩
    · obtain ⟨o, _, hfo⟩ := List.mem_filterMap.mp hr
      obtain ⟨_, hrec⟩ := ite_some_none_eq_some.mp hfo
      subst hrec
      exact ⟨le_min (ruleOppScore_fst_nonneg u o) (by norm_num), min_le_right _ _⟩
  have hcb : ∀ (u : User) (prefs : Preferences) (p1 p2 : List Item) (r : Rec),
      r ∈ generateContentBasedRecommendations u prefs p1 p2 →
        0 ≤ r.score ∧ r.score ≤ 1 := by
    intro u prefs p1 p2 r hr
    have hemit : ∀ (uid : Nat) (et : EntityType) (rs : List Reason) (pool : List Item),
        r ∈ cbEmit uid et rs prefs pool → 0 ≤ r.score ∧ r.score ≤ 1 := by
      intro uid et rs pool hmem
      obtain ⟨item, _, hf⟩ := List.mem_filterMap.mp hmem
      cases hsim : calculateContentSimilarity item prefs with
      | none => rw [hsim] at hf; simp at hf
      | some s =>
          rw [hsim] at hf
          obtain ⟨_, hrec⟩ := ite_some_none_eq_some.mp hf
          subst hrec
          exact calculateContentSimilarity_unit item prefs s hsim
    unfold generateContentBasedRecommendations at hr
    split_ifs at hr
    · exact hemit _ _ _ _ hr
    · exact hemit _ _ _ _ hr
    · simp at hr
  have hcf : ∀ (u : User) (au : List User) (r : Rec),
      r ∈ generateCollaborativeFilteringRecommendations u au →
        0 ≤ r.score ∧ r.score ≤ 1 := by
    intro u au r hr
    have hemit : ∀ (uid : Nat) (et : EntityType) (pool : List Nat)
        (savedCheck : Nat → Bool) (n : Nat),
        r ∈ collabEmit uid et pool savedCheck n → 0 ≤ r.score ∧ r.score ≤ 1 := by
      intro uid et pool savedCheck n hmem
      obtain ⟨eid, _, hf⟩ := List.mem_filterMap.mp hmem
      obtain ⟨_, hrec⟩ := ite_some_none_eq_some.mp hf
      subst hrec
      refine ⟨le_min (by positivity) (by norm_num), min_le_right _ _⟩
    unfold generateCollaborativeFilteringRecommendations at hr
    dsimp only at hr
    split_ifs at hr
    · simp at hr
    · exact hemit _ _ _ _ _ hr
    · exact hemit _ _ _ _ _ hr
  refine ⟨hrule, hcb, hcf, ?_⟩
  intro u ep op prefs p1 p2 au r hr
  unfold generateHybridRecommendations at hr
  refine hybridMerge_score_mem _ _ _ ?_ r hr
  intro x hx
  rcases List.mem_append.mp hx with hx | hx
  · rcases List.mem_append.mp hx with hx | hx
    · exact hrule _ _ _ _ hx
    · exact hcb _ _ _ _ _ hx
  · exact hcf _ _ _ hx

/-- The record the rule-based scorer emits for `uScience` and `ePhysics`. -/
def recPhys : Rec :=
  { user_id := 1, entity_type := .exam, entity_id := 11, score := min (9/10) 1,
    algorithm_used := .rule_based,
    recommendation_reasons :=
      [⟨"Matches your Science stream", 3/10⟩, ⟨"Popular among students", 1/10⟩] }

/-- Witness for C2 at a concrete emitted record. -/
theorem claim2_witness : 0 ≤ recPhys.score ∧ recPhys.score ≤ 1 := by
  have hsc : ruleExamScore uScience ePhysics
      = (9/10, [⟨"Matches your Science stream", 3/10⟩, ⟨"Popular among students", 1/10⟩]) := by
    simp +decide only [ruleExamScore]
    norm_num
  have hout : generateRuleBasedRecommendations uScience [ePhysics] [] = [recPhys] := by
    simp +decide only [generateRuleBasedRecommendations, List.filterMap_cons,
      List.filterMap_nil, hsc, recPhys]
    norm_num [uScience, uBoundary, ePhysics]
  exact claim2_scores_in_unit_interval.1 uScience [ePhysics] [] recPhys
    (by rw [hout]; simp)

/-! ## C5 — hybrid merger: dedup by key, mean on conflict, stable sort, cap -/

/-- Stable descending insertion preserves descending sortedness. -/
theorem insertByScore_pairwise (r : Rec) (l : List Rec)
    (h : l.Pairwise fun a b => b.score ≤ a.score) :
    (insertByScore r l).Pairwise fun a b => b.score ≤ a.score := by
  induction l with
  | nil => simp [insertByScore]
  | cons x xs ih =>
      rw [List.pairwise_cons] at h
      obtain ⟨hx, hxs⟩ := h
      simp only [insertByScore]
      split_ifs with hgt
      · rw [List.pairwise_cons]
        refine ⟨?_, ih hxs⟩
        intro y hy
        rcases List.mem_cons.mp ((insertByScore_perm r xs).mem_iff.mp hy) with rfl | hy
        · exact le_of_lt hgt
        · exact hx y hy
      · rw [List.pairwise_cons]
        refine ⟨?_, by rw [List.pairwise_cons]; exact ⟨hx, hxs⟩⟩
        intro y hy
        rcases List.mem_cons.mp hy with rfl | hy
        · exact le_of_not_lt hgt
        · exact le_trans (hx y hy) (le_of_not_lt hgt)

/-- The stable sort output is descending in score. -/
theorem sortByScoreDesc_pairwise (l : List Rec) :
    (sortByScoreDesc l).Pairwise fun a b => b.score ≤ a.score := by
  induction l with
  | nil => simp [sortByScoreDesc]
  | cons x xs ih => exact insertByScore_pairwise x _ ih

/-- Stability of insertion: within one equal-score class, the inserted
element lands in front and the rest keep their order. -/
theorem filter_insertByScore (r : Rec) (l : List Rec) (q : ℚ) :
    (insertByScore r l).filter (fun x => decide (x.score = q))
      = if r.score = q then r :: l.filter (fun x => decide (x.score = q))
        else l.filter (fun x => decide (x.score = q)) := by
  induction l with
  | nil =>
      by_cases hrq : r.score = q <;> simp [insertByScore, hrq, List.filter_cons]
  | cons x xs ih =>
      simp only [insertByScore]
      by_cases hgt : x.score > r.score
      · rw [if_pos hgt, List.filter_cons, ih]
        by_cases hxq : x.score = q <;> by_cases hrq : r.score = q
        · exact absurd (hxq.trans hrq.symm) (ne_of_gt hgt)
        · simp [hxq, hrq, List.filter_cons]
        · simp [hxq, hrq, List.filter_cons]
        · simp [hxq, hrq, List.filter_cons]
      · rw [if_neg hgt]
        by_cases hrq : r.score = q <;> simp [hrq, List.filter_cons]

/-- Stability of the sort: each equal-score class appears in its original
relative order. -/
theorem sortByScoreDesc_filter (l : List Rec) (q : ℚ) :
    (sortByScoreDesc l).filter (fun x => decide (x.score = q))
      = l.filter (fun x => decide (x.score = q)) := by
  induction l with
  | nil => simp [sortByScoreDesc]
  | cons x xs ih =>
      simp only [sortByScoreDesc]
      rw [filter_insertByScore, List.filter_cons]
      by_cases hxq : x.score = q
      · simp [hxq, ih]
      · simp [hxq, ih]

/-- A merge step either keeps the key list (repeated key) or appends the new
key (fresh key). -/
theorem mergeInto_map_recKey (acc : List Rec) (r : Rec) :
    (mergeInto acc r).map recKey
      = if acc.any fun x => recKey x = recKey r then acc.map recKey
        else acc.map recKey ++ [recKey r] := by
  unfold mergeInto
  split_ifs with h
  · rw [List.map_map]
    refine List.map_congr_left ?_
    intro x _
    simp only [Function.comp_apply]
    by_cases hx : recKey x = recKey r
    · rw [if_pos hx]
      simp [recKey]
    · rw [if_neg hx]
  · simp

/-- The merge fold keeps the key list duplicate free. -/
theorem foldl_mergeInto_keys_nodup (l : List Rec) (acc : List Rec)
    (h : (acc.map recKey).Nodup) :
    ((l.foldl mergeInto acc).map recKey).Nodup := by
  induction l generalizing acc with
  | nil => simpa using h
  | cons y ys ih =>
      simp only [List.foldl_cons]
      refine ih (mergeInto acc y) ?_
      rw [mergeInto_map_recKey]
      split_ifs with hkey
      · exact h
      · rw [List.nodup_append]
        refine ⟨h, List.nodup_singleton _, ?_⟩
        intro k hk
        simp only [List.mem_singleton]
        intro hkr
        subst hkr
        obtain ⟨x, hx, hxk⟩ := List.mem_map.mp hk
        have hany : (acc.any fun z => decide (recKey z = recKey y)) = true :=
          List.any_eq_true.mpr ⟨x, hx, by simp [hxk]⟩
        exact absurd hany hkey

/-- A scored candidate from the first input list of the worked example:
the shared examination with score 0.8. -/
def recA : Rec :=
  { user_id := 1, entity_type := .exam, entity_id := 5, score := 4/5,
    algorithm_used := .rule_based, recommendation_reasons := [⟨"rule reason", 3/10⟩] }

/-- The same examination scored 0.6 by a second strategy. -/
def recB : Rec :=
  { user_id := 1, entity_type := .exam, entity_id := 5, score := 3/5,
    algorithm_used := .content_based, recommendation_reasons := [⟨"content reason", 2/5⟩] }

/-- The merged entry the hybrid merger must produce for `recA` and `recB`. -/
def recMerged : Rec :=
  { user_id := 1, entity_type := .exam, entity_id := 5, score := 7/10,
    algorithm_used := .hybrid,
    recommendation_reasons := [⟨"rule reason", 3/10⟩, ⟨"content reason", 2/5⟩] }

/-- C5: the hybrid merge deduplicates on `(entity_type, entity_id)`, caps
the output at 50, sorts descending by score with a stable sort (each
equal-score class keeps its first-seen order), and on the worked example two
lists holding the same examination at 0.8 and 0.6 merge to one `hybrid`
entry at 0.7. -/
theorem claim5_hybrid_merge (l1 l2 l3 : List Rec) :
    ((hybridMerge l1 l2 l3).map recKey).Nodup
    ∧ (hybridMerge l1 l2 l3).length ≤ 50
    ∧ (hybridMerge l1 l2 l3).Pairwise (fun a b => b.score ≤ a.score)
    ∧ (sortByScoreDesc ((l1 ++ l2 ++ l3).foldl mergeInto [])).Perm
        ((l1 ++ l2 ++ l3).foldl mergeInto [])
    ∧ (∀ q : ℚ,
        (sortByScoreDesc ((l1 ++ l2 ++ l3).foldl mergeInto [])).filter
            (fun x => decide (x.score = q))
          = ((l1 ++ l2 ++ l3).foldl mergeInto []).filter
            (fun x => decide (x.score = q)))
    ∧ hybridMerge l1 l2 l3
        = (sortByScoreDesc ((l1 ++ l2 ++ l3).foldl mergeInto [])).take 50
    ∧ hybridMerge [recA] [recB] [] = [recMerged] := by
  have hperm := sortByScoreDesc_perm ((l1 ++ l2 ++ l3).foldl mergeInto [])
  have hnodup : (((l1 ++ l2 ++ l3).foldl mergeInto []).map recKey).Nodup :=
    foldl_mergeInto_keys_nodup _ [] (by simp)
  refine ⟨?_, ?_, ?_, hperm, sortByScoreDesc_filter _, rfl, ?_⟩
  · have h1 : ((sortByScoreDesc ((l1 ++ l2 ++ l3).foldl mergeInto [])).map recKey).Nodup :=
      ((hperm.map recKey).nodup_iff).mpr hnodup
    exact h1.sublist ((List.take_sublist _ _).map recKey)
  · exact List.length_take_le _ _
  · exact (sortByScoreDesc_pairwise _).sublist (List.take_sublist _ _)
  · simp +decide only [hybridMerge, List.append_nil, List.cons_append,
      List.nil_append, List.foldl_cons, List.foldl_nil, mergeInto, List.any_nil,
      List.any_cons, sortByScoreDesc, insertByScore, List.map_cons, List.map_nil,
      List.take]
    norm_num [recA, recB, recMerged]

/-! ## C8 — neighbour-based scorer -/

/-- Membership in the deduplication worker: seen ids are dropped, the rest
kept. -/
theorem mem_dedupFirst_go (l : List Nat) :
    ∀ (seen : List Nat) (x : Nat),
      x ∈ dedupFirst.go seen l ↔ (x ∈ l ∧ x ∉ seen) := by
  induction l with
  | nil => simp [dedupFirst.go]
  | cons y ys ih =>
      intro seen x
      simp only [dedupFirst.go]
      split_ifs with hy
      · rw [ih]
        have hymem : y ∈ seen := by simpa using hy
        constructor
        · rintro ⟨hx, hs⟩
          exact ⟨List.mem_cons_of_mem _ hx, hs⟩
        · rintro ⟨hx, hs⟩
          rcases List.mem_cons.mp hx with rfl | hx
          · exact absurd hymem hs
          · exact ⟨hx, hs⟩
      · have hynot : y ∉ seen := by simpa using hy
        rw [List.mem_cons, ih]
        constructor
        · rintro (rfl | ⟨hx, hs⟩)
          · exact ⟨List.mem_cons_self _ _, hynot⟩
          · refine ⟨List.mem_cons_of_mem _ hx, fun hcon => hs (List.mem_cons_of_mem _ hcon)⟩
        · rintro ⟨hx, hs⟩
          rcases List.mem_cons.mp hx with rfl | hx
          · exact Or.inl rfl
          · by_cases hxy : x = y
            · exact Or.inl hxy
            · refine Or.inr ⟨hx, fun hcon => ?_⟩
              rcases List.mem_cons.mp hcon with rfl | hcon
              · exact hxy rfl
              · exact hs hcon

/-- `dedupFirst` keeps exactly the ids of its input. -/
theorem mem_dedupFirst (l : List Nat) (x : Nat) :
    x ∈ dedupFirst l ↔ x ∈ l := by
  unfold dedupFirst
  rw [mem_dedupFirst_go]
  simp

/-- When each neighbour list is duplicate free, the occurrence count over
the pooled lists equals the number of neighbours holding the id. -/
theorem count_flatMap_eq_countP (S : List User) (f : User → List Nat) (x : Nat)
    (h : ∀ v ∈ S, (f v).Nodup) :
    (S.flatMap f).count x = S.countP (fun v => (f v).contains x) := by
  induction S with
  | nil => simp
  | cons v vs ih =>
      rw [List.flatMap_cons, List.count_append, List.countP_cons]
      have hvs := ih fun w hw => h w (List.mem_cons_of_mem v hw)
      by_cases hx : x ∈ f v
      · rw [List.count_eq_one_of_mem (h v (List.mem_cons_self v vs)) hx, hvs]
        simp [hx]
        omega
      · rw [List.count_eq_zero.mpr hx, hvs]
        simp [hx]

/-- Characterization of the co-occurrence emission loop, generic in the
branch's learner-saved test. -/
theorem collabEmit_spec (uid : Nat) (et : EntityType) (pool : List Nat)
    (savedCheck : Nat → Bool) (n : Nat) :
    (∀ r ∈ collabEmit uid et pool savedCheck n,
      2 ≤ pool.count r.entity_id ∧ savedCheck r.entity_id = false
      ∧ r.entity_id ∈ pool
      ∧ r.score = min ((pool.count r.entity_id : ℚ) / (n : ℚ)) 1
      ∧ r.user_id = uid ∧ r.entity_type = et
      ∧ r.algorithm_used = .collaborative_filtering)
    ∧ (∀ eid, 2 ≤ pool.count eid → savedCheck eid = false →
        ∃ r ∈ collabEmit uid et pool savedCheck n, r.entity_id = eid) := by
  constructor
  · intro r hr
    obtain ⟨eid, hed, hf⟩ := List.mem_filterMap.mp hr
    obtain ⟨⟨hcount, hsaved⟩, hrec⟩ := ite_some_none_eq_some.mp hf
    subst hrec
    refine ⟨hcount, by simpa using hsaved, (mem_dedupFirst pool eid).mp hed,
      rfl, rfl, rfl, rfl⟩
  · intro eid hcount hsaved
    have hpos : 0 < pool.count eid := by omega
    have hmem : eid ∈ pool := List.count_pos_iff.mp hpos
    refine ⟨{ user_id := uid, entity_type := et, entity_id := eid,
              score := min ((pool.count eid : ℚ) / (n : ℚ)) 1,
              algorithm_used := .collaborative_filtering,
              recommendation_reasons := [⟨"Popular among users like you", 1/2⟩] },
            List.mem_filterMap.mpr ⟨eid, (mem_dedupFirst pool eid).mpr hmem, ?_⟩, rfl⟩
    rw [if_pos ⟨hcount, by simp [hsaved]⟩]

/-- A school learner interested in AI with nothing saved. -/
def uCollab : User :=
  { id := 1, role := "school", is_active := true, school_info := none,
    education := ⟨"", 0⟩, interests := ["AI"], saved_exams := [],
    saved_hackathons := [], saved_internships := [] }

/-- A first neighbour sharing the AI interest who saved exam 42. -/
def nOne : User :=
  { id := 2, role := "school", is_active := true, school_info := none,
    education := ⟨"", 0⟩, interests := ["AI"], saved_exams := [42],
    saved_hackathons := [], saved_internships := [] }

/-- A second neighbour sharing the AI interest who saved exam 42. -/
def nTwo : User :=
  { id := 3, role := "school", is_active := true, school_info := none,
    education := ⟨"", 0⟩, interests := ["AI"], saved_exams := [42],
    saved_hackathons := [], saved_internships := [] }

/-- `uCollab` after saving exam 42 themselves. -/
def uCollabSaved : User := { uCollab with saved_exams := [42] }

/-- A university learner interested in AI who already saved hackathon 77. -/
def uUni : User :=
  { id := 1, role := "university", is_active := true, school_info := none,
    education := ⟨"BTech", 2⟩, interests := ["AI"], saved_exams := [],
    saved_hackathons := [77], saved_internships := [] }

/-- A first university neighbour sharing the AI interest who saved
hackathon 77. -/
def mOne : User :=
  { id := 2, role := "university", is_active := true, school_info := none,
    education := ⟨"BTech", 2⟩, interests := ["AI"], saved_exams := [],
    saved_hackathons := [77], saved_internships := [] }

/-- A second university neighbour sharing the AI interest who saved
hackathon 77. -/
def mTwo : User :=
  { id := 3, role := "university", is_active := true, school_info := none,
    education := ⟨"BTech", 2⟩, interests := ["AI"], saved_exams := [],
    saved_hackathons := [77], saved_internships := [] }

/-- C8, evaluated at the failing input: `uUni` has already saved
opportunity 77, two neighbours also saved it, and the scorer emits 77
anyway — the opportunity branch's learner-saved exclusion (a plain-array
`includes` on ObjectId instances) never matches.  By contrast the exam
branch, whose `MongooseArray#includes` compares by value, does exclude: the
same configuration with exams yields an empty result once the learner has
saved exam 42. -/
theorem claim8_saved_exclusion_inert :
    (77 ∈ uUni.saved_hackathons ++ uUni.saved_internships)
    ∧ ((generateCollaborativeFilteringRecommendations uUni [mOne, mTwo]).map
        fun r => r.entity_id) = [77]
    ∧ generateCollaborativeFilteringRecommendations uCollabSaved [nOne, nTwo]
        = [] := by
  exact ⟨by decide, rfl, rfl⟩

/-! ## C3 / C4 — the interaction endpoint -/

/-- `applyInteraction` never clears a flag. -/
theorem applyInteraction_flags_mono (r : StoredRec) (kind : String) (now : Nat) :
    (r.viewed → (applyInteraction r kind now).viewed)
    ∧ (r.saved → (applyInteraction r kind now).saved)
    ∧ (r.applied → (applyInteraction r kind now).applied) := by
  unfold applyInteraction
  split_ifs <;> simp_all

/-- `applyInteraction` keeps the document id. -/
theorem applyInteraction_id (r : StoredRec) (kind : String) (now : Nat) :
    (applyInteraction r kind now).id = r.id := by
  unfold applyInteraction
  split_ifs <;> rfl

/-- Every record with the target id in the store after a successful
interaction call is the updated copy of the found document. -/
theorem mem_update_store (store : List StoredRec) (recId : Nat) (kind : String)
    (now : Nat) (hvalid : ["viewed", "saved", "applied"].contains kind)
    (r2 : StoredRec)
    (hr2 : r2 ∈ (updateRecommendationInteraction store recId kind now).1)
    (hid : r2.id = recId) :
    ∃ r0 ∈ store, r0.id = recId ∧ r2 = applyInteraction r0 kind now := by
  unfold updateRecommendationInteraction at hr2
  rw [if_neg (not_not_intro hvalid)] at hr2
  unfold updateInteraction at hr2
  cases hfind : store.find? fun r => r.id = recId with
  | none =>
      rw [hfind] at hr2
      have := List.find?_eq_none.mp hfind r2 hr2
      simp [hid] at this
  | some r0 =>
      rw [hfind] at hr2
      simp only at hr2
      obtain ⟨x, hx, hxeq⟩ := List.mem_map.mp hr2
      have hr0mem : r0 ∈ store := List.mem_of_find?_eq_some hfind
      have hr0id : r0.id = recId := by simpa using List.find?_some hfind
      by_cases hxid : x.id = recId
      · rw [if_pos hxid] at hxeq
        exact ⟨r0, hr0mem, hr0id, hxeq.symm⟩
      · rw [if_neg hxid] at hxeq
        subst hxeq
        exact absurd hid hxid

/-- C3 (amended): flags only transition false → true, but each call with a
valid kind rewrites the corresponding timestamp to the current call time —
after two calls with the same kind the timestamp is the *second* call's
time, not the first's. -/
theorem claim3_interaction_amended (store : List StoredRec) (recId t1 t2 : Nat)
    (kind : String) :
    (∀ r2 ∈ (updateRecommendationInteraction store recId kind t1).1,
      ∃ r ∈ store, r.id = r2.id ∧ (r.viewed → r2.viewed) ∧ (r.saved → r2.saved)
        ∧ (r.applied → r2.applied))
    ∧ (kind = "viewed" →
        ∀ r2 ∈ (updateRecommendationInteraction
            (updateRecommendationInteraction store recId kind t1).1 recId kind t2).1,
          r2.id = recId → r2.viewed_at = some t2 ∧ r2.viewed = true)
    ∧ (kind = "saved" →
        ∀ r2 ∈ (updateRecommendationInteraction
            (updateRecommendationInteraction store recId kind t1).1 recId kind t2).1,
          r2.id = recId → r2.saved_at = some t2 ∧ r2.saved = true)
    ∧ (kind = "applied" →
        ∀ r2 ∈ (updateRecommendationInteraction
            (updateRecommendationInteraction store recId kind t1).1 recId kind t2).1,
          r2.id = recId → r2.applied_at = some t2 ∧ r2.applied = true) := by
  refine ⟨?_, ?_, ?_, ?_⟩
  · intro r2 hr2
    unfold updateRecommendationInteraction at hr2
    split_ifs at hr2 with hvalid
    · unfold updateInteraction at hr2
      cases hfind : store.find? fun r => r.id = recId with
      | none =>
          rw [hfind] at hr2
          simp only at hr2
          exact ⟨r2, hr2, rfl, fun h => h, fun h => h, fun h => h⟩
      | some r0 =>
          rw [hfind] at hr2
          simp only at hr2
          obtain ⟨x, hx, hxeq⟩ := List.mem_map.mp hr2
          by_cases hxid : x.id = recId
          · rw [if_pos hxid] at hxeq
            subst hxeq
            obtain ⟨h1, h2, h3⟩ := applyInteraction_flags_mono r0 kind t1
            exact ⟨r0, List.mem_of_find?_eq_some hfind,
              (applyInteraction_id r0 kind t1).symm, h1, h2, h3⟩
          · rw [if_neg hxid] at hxeq
            subst hxeq
            exact ⟨x, hx, rfl, fun h => h, fun h => h, fun h => h⟩
    · simp only at hr2
      exact ⟨r2, hr2, rfl, fun h => h, fun h => h, fun h => h⟩
  · rintro rfl r2 hr2 hid
    obtain ⟨r0, _, _, hr2eq⟩ := mem_update_store _ recId _ t2 (by decide) r2 hr2 hid
    subst hr2eq
    simp [applyInteraction]
  · rintro rfl r2 hr2 hid
    obtain ⟨r0, _, _, hr2eq⟩ := mem_update_store _ recId _ t2 (by decide) r2 hr2 hid
    subst hr2eq
    simp [applyInteraction]
  · rintro rfl r2 hr2 hid
    obtain ⟨r0, _, _, hr2eq⟩ := mem_update_store _ recId _ t2 (by decide) r2 hr2 hid
    subst hr2eq
    simp [applyInteraction]

/-- An active stored recommendation used by the interaction
counterexamples. -/
def srBase : StoredRec :=
  { id := 1, user_id := 1, entity_type := .exam, entity_id := 5, score := 1,
    algorithm_used := .rule_based, recommendation_reasons := [],
    viewed := false, saved := false, applied := false,
    viewed_at := none, saved_at := none, applied_at := none,
    expires_at := 99, is_active := true }

/-- Counterexample to C3 as stated: recording `viewed` at time 0 and again
at time 1 leaves `viewed_at = some 1`, the second call's time — the
timestamp is overwritten, not set at most once. -/
theorem claim3_counterexample :
    ((updateRecommendationInteraction
        (updateRecommendationInteraction [srBase] 1 "viewed" 0).1
        1 "viewed" 1).1.map fun r => r.viewed_at) = [some 1]
    ∧ some (1 : Nat) ≠ some 0 := by
  constructor
  · rfl
  · decide

/-- The record of `srBase` after the two `viewed` calls of the
counterexample. -/
def srViewedTwice : StoredRec := { srBase with viewed := true, viewed_at := some 1 }

/-- Witness for the amended C3 at the concrete double call. -/
theorem claim3_witness :
    srViewedTwice.viewed_at = some 1 ∧ srViewedTwice.viewed = true :=
  (claim3_interaction_amended [srBase] 1 0 1 "viewed").2.1 rfl srViewedTwice
    (by
      have h : (updateRecommendationInteraction
          (updateRecommendationInteraction [srBase] 1 "viewed" 0).1
          1 "viewed" 1).1 = [srViewedTwice] := rfl
      rw [h]
      exact List.mem_singleton_self _)
    rfl

/-- C4 (amended): an invalid interaction kind is rejected with 400 and the
store untouched; with a valid kind the call answers `NotFound` — with the
store untouched — exactly when no stored record has the id, and otherwise
updates the found record (whether or not it `is_active`), setting the flag
and the timestamp of the kind. -/
theorem claim4_interaction_errors_amended (store : List StoredRec) (recId : Nat)
    (kind : String) (now : Nat) :
    (¬ (["viewed", "saved", "applied"].contains kind) →
      updateRecommendationInteraction store recId kind now
        = (store, .badRequest "Invalid interaction type"))
    ∧ ((["viewed", "saved", "applied"].contains kind) →
        (∀ r ∈ store, r.id ≠ recId) →
        updateRecommendationInteraction store recId kind now
          = (store, .notFound "Recommendation not found"))
    ∧ ((["viewed", "saved", "applied"].contains kind) →
        ∀ r0, (store.find? fun r => r.id = recId) = some r0 →
          updateRecommendationInteraction store recId kind now
            = (store.map fun x =>
                if x.id = recId then applyInteraction r0 kind now else x,
               .ok (applyInteraction r0 kind now)))
    ∧ (∀ r, (applyInteraction r "viewed" now).viewed = true
        ∧ (applyInteraction r "viewed" now).viewed_at = some now)
    ∧ (∀ r, (applyInteraction r "saved" now).saved = true
        ∧ (applyInteraction r "saved" now).saved_at = some now)
    ∧ (∀ r, (applyInteraction r "applied" now).applied = true
        ∧ (applyInteraction r "applied" now).applied_at = some now) := by
  refine ⟨?_, ?_, ?_, ?_, ?_, ?_⟩
  · intro hinvalid
    unfold updateRecommendationInteraction
    rw [if_pos hinvalid]
  · intro hvalid hnone
    unfold updateRecommendationInteraction
    rw [if_neg (not_not_intro hvalid)]
    unfold updateInteraction
    have hfind : (store.find? fun r => r.id = recId) = none := by
      rw [List.find?_eq_none]
      intro r hr
      simpa using hnone r hr
    rw [hfind]
  · intro hvalid r0 hfind
    unfold updateRecommendationInteraction
    rw [if_neg (not_not_intro hvalid)]
    unfold updateInteraction
    rw [hfind]
  · intro r
    simp [applyInteraction]
  · intro r
    simp [applyInteraction]
  · intro r
    simp [applyInteraction]

/-- An inactive stored recommendation. -/
def srInactive : StoredRec := { srBase with is_active := false }

/-- Counterexample to C4 as stated: the record with id 1 exists but is not
active, yet the call succeeds (no `NotFound`) and mutates the store. -/
theorem claim4_counterexample :
    srInactive.is_active = false
    ∧ (updateRecommendationInteraction [srInactive] 1 "viewed" 7).2
        = .ok { srInactive with viewed := true, viewed_at := some 7 }
    ∧ ((updateRecommendationInteraction [srInactive] 1 "viewed" 7).1.map
        fun r => r.viewed) = [true] := by
  exact ⟨rfl, rfl, rfl⟩

/-- Witness for the amended C4: a valid kind against an empty store answers
`NotFound` and leaves the store empty. -/
theorem claim4_witness :
    updateRecommendationInteraction [] 5 "viewed" 0
      = ([], .notFound "Recommendation not found") :=
  (claim4_interaction_errors_amended [] 5 "viewed" 0).2.1 (by decide)
    (by intro r hr; simp at hr)

/-! ## C1 — uniqueness of active records after a generation run -/

/-- The identifying triple of an in-flight recommendation. -/
def recTriple (r : Rec) : Nat × EntityType × Nat :=
  (r.user_id, r.entity_type, r.entity_id)

/-- The payload of an entry of `enumFrom` is a member of the underlying
list. -/
theorem snd_mem_of_mem_enumFrom {α : Type} :
    ∀ (m : Nat) (l : List α) (q : Nat × α), q ∈ l.enumFrom m → q.2 ∈ l := by
  intro m l
  induction l generalizing m with
  | nil => intro q hq; simp [List.enumFrom] at hq
  | cons x xs ih =>
      intro q hq
      simp only [List.enumFrom] at hq
      rcases List.mem_cons.mp hq with rfl | hq
      · exact List.mem_cons_self _ _
      · exact List.mem_cons_of_mem _ (ih (m + 1) q hq)

/-- A pairwise relation on a list lifts to its enumeration. -/
theorem pairwise_enumFrom {α : Type} {S : α → α → Prop} :
    ∀ (n : Nat) (l : List α), l.Pairwise S →
      (l.enumFrom n).Pairwise fun p q => S p.2 q.2 := by
  intro n l
  induction l generalizing n with
  | nil => intro _; simp [List.enumFrom]
  | cons x xs ih =>
      intro h
      rw [List.pairwise_cons] at h
      simp only [List.enumFrom]
      rw [List.pairwise_cons]
      refine ⟨?_, ih (n + 1) h.2⟩
      intro q hq
      exact h.1 q.2 (snd_mem_of_mem_enumFrom (n + 1) xs q hq)

/-- `mkStored` keeps identifying triples, so pairwise-distinct recommendation
triples give pairwise-distinct stored triples. -/
theorem mkStored_storedKey_pairwise (idStart now : Nat) (recs : List Rec)
    (h : recs.Pairwise fun a b => recTriple a ≠ recTriple b) :
    (mkStored idStart now recs).Pairwise fun a b => storedKey a ≠ storedKey b := by
  unfold mkStored
  rw [List.pairwise_map]
  have henum : recs.enum.Pairwise fun p q => recTriple p.2 ≠ recTriple q.2 :=
    pairwise_enumFrom 0 recs h
  refine henum.imp ?_
  intro p q hpq hcon
  apply hpq
  simpa [storedKey, recTriple] using hcon

/-- Every document inserted by `mkStored` is active. -/
theorem mkStored_filter_active (idStart now : Nat) (recs : List Rec) :
    ((mkStored idStart now recs).filter fun r => r.is_active)
      = mkStored idStart now recs := by
  refine List.filter_eq_self.mpr ?_
  intro a ha
  obtain ⟨p, _, hpa⟩ := List.mem_map.mp ha
  subst hpa
  rfl

/-- The documents inserted by `mkStored` carry the user ids of their
recommendations. -/
theorem mkStored_user_id (idStart now : Nat) (recs : List Rec) :
    ∀ b ∈ mkStored idStart now recs, ∃ r ∈ recs, b.user_id = r.user_id := by
  intro b hb
  obtain ⟨p, hp, hpb⟩ := List.mem_map.mp hb
  subst hpb
  refine ⟨p.2, ?_, rfl⟩
  have : p.2 ∈ recs.enum.map Prod.snd := List.mem_map_of_mem Prod.snd hp
  rwa [List.enum_map_snd] at this

/-- The controller's inline loops only emit records for the given user. -/
theorem ctrlNewRecommendations_user_id (u : User) (ep : List ExamC)
    (op : List OppC) :
    ∀ r ∈ ctrlNewRecommendations u ep op, r.user_id = u.id := by
  intro r hr
  unfold ctrlNewRecommendations at hr
  split_ifs at hr
  · obtain ⟨e, _, hfe⟩ := List.mem_filterMap.mp hr
    obtain ⟨_, hrec⟩ := ite_some_none_eq_some.mp hfe
    subst hrec
    rfl
  · obtain ⟨o, _, hfo⟩ := List.mem_filterMap.mp hr
    obtain ⟨_, hrec⟩ := ite_some_none_eq_some.mp hfo
    subst hrec
    rfl

/-- With duplicate-free candidate ids, the controller's fresh batch has
pairwise distinct identifying triples. -/
theorem ctrlNewRecommendations_pairwise (u : User) (ep : List ExamC)
    (op : List OppC) (hep : (ep.map fun e => e.id).Nodup)
    (hop : (op.map fun o => o.id).Nodup) :
    (ctrlNewRecommendations u ep op).Pairwise
      fun a b => recTriple a ≠ recTriple b := by
  unfold ctrlNewRecommendations
  split_ifs
  · have hids : ep.Pairwise fun a b => a.id ≠ b.id := List.pairwise_map.mp hep
    refine List.Pairwise.filterMap _ ?_ hids
    intro a b hab x hx y hy
    obtain ⟨_, hxa⟩ := ite_some_none_eq_some.mp hx
    obtain ⟨_, hyb⟩ := ite_some_none_eq_some.mp hy
    subst hxa
    subst hyb
    simp [recTriple, hab]
  · have hids : op.Pairwise fun a b => a.id ≠ b.id := List.pairwise_map.mp hop
    refine List.Pairwise.filterMap _ ?_ hids
    intro a b hab x hx y hy
    obtain ⟨_, hxa⟩ := ite_some_none_eq_some.mp hx
    obtain ⟨_, hyb⟩ := ite_some_none_eq_some.mp hy
    subst hxa
    subst hyb
    simp [recTriple, hab]

/-- C1 (amended): the controller's generation endpoint first deletes every
stored record of the learner and then inserts a batch with one record per
candidate, so — for duplicate-free candidate pools — the active-uniqueness
invariant is preserved by one run, and in particular by two consecutive
runs. -/
theorem claim1_controller_generate_unique (store : List StoredRec) (user : User)
    (examPool : List ExamC) (oppPool : List OppC) (now idStart : Nat)
    (hstore : ActiveKeysUnique store)
    (hex : (examPool.map fun e => e.id).Nodup)
    (hop : (oppPool.map fun o => o.id).Nodup) :
    ActiveKeysUnique (controllerGenerate store user examPool oppPool now idStart)
    ∧ ∀ now2 idStart2,
      ActiveKeysUnique (controllerGenerate
        (controllerGenerate store user examPool oppPool now idStart)
        user examPool oppPool now2 idStart2) := by
  have main : ∀ (st : List StoredRec), ActiveKeysUnique st →
      ∀ (n i : Nat),
      ActiveKeysUnique (controllerGenerate st user examPool oppPool n i) := by
    intro st hst n i
    unfold ActiveKeysUnique controllerGenerate
    rw [List.filter_append]
    rw [List.pairwise_append]
    refine ⟨?_, ?_, ?_⟩
    · have hsub : List.Sublist
          ((st.filter fun r => r.user_id ≠ user.id).filter fun r => r.is_active)
          (st.filter fun r => r.is_active) :=
        List.Sublist.filter _ (List.filter_sublist st)
      exact hst.sublist hsub
    · rw [mkStored_filter_active]
      exact mkStored_storedKey_pairwise i n _
        (ctrlNewRecommendations_pairwise user examPool oppPool hex hop)
    · intro a ha b hb
      have ha2 : a ∈ st.filter fun r => r.user_id ≠ user.id :=
        List.mem_of_mem_filter ha
      have hane : ¬ (a.user_id = user.id) := by
        simpa using List.of_mem_filter ha2
      rw [mkStored_filter_active] at hb
      obtain ⟨r, hr, hbr⟩ := mkStored_user_id i n _ b hb
      have hbu : b.user_id = user.id := by
        rw [hbr]
        exact ctrlNewRecommendations_user_id user examPool oppPool r hr
      intro hcon
      apply hane
      have : a.user_id = b.user_id := congrArg (fun t => t.1) hcon
      rw [this, hbu]
  refine ⟨main store hstore now idStart, ?_⟩
  intro now2 idStart2
  exact main _ (main store hstore now idStart) now2 idStart2

/-- The store after one service generation run for `uCollab` (collaborative
algorithm, neighbours `nOne`/`nTwo`), starting from an empty store. -/
def svcStoreOne : List StoredRec :=
  match serviceGenerate [] uCollab "collaborative_filtering" [] [] prefsEmpty
      [] [] [nOne, nTwo] 0 100 with
  | .ok p => p.1
  | .error _ => []

/-- The store after a second, identical service generation run. -/
def svcStoreTwo : List StoredRec :=
  match serviceGenerate svcStoreOne uCollab "collaborative_filtering" [] []
      prefsEmpty [] [] [nOne, nTwo] 5 200 with
  | .ok p => p.1
  | .error _ => []

/-- Counterexample to C1 as stated: the service generation path inserts
without retiring the learner's prior records, so two consecutive runs leave
two active records with the same `(learner, entity_type, entity_id)`
triple. -/
theorem claim1_counterexample :
    ((svcStoreTwo.filter fun r => r.is_active).map storedKey)
      = [(1, .exam, 42), (1, .exam, 42)]
    ∧ ¬ ActiveKeysUnique svcStoreTwo := by
  constructor
  · rfl
  · unfold ActiveKeysUnique
    decide

/-! ## C7 — the content-based similarity formula -/

/-- The per-facet overlap ratio of the spec,
`|candidate_facet ∩ preference_facet| / |candidate_facet|`. -/
def facetRatio (l pref : List String) : ℚ :=
  ((l.filter fun s => pref.contains s).length : ℚ) / (l.length : ℚ)

/-- Numerator contribution of a list facet: `weight * ratio` when present. -/
def listFacetNum (lopt : Option (List String)) (pref : List String) (w : ℚ) : ℚ :=
  match lopt with
  | some l => facetRatio l pref * w
  | none => 0

/-- Weight contribution of a list facet: its weight whenever present. -/
def listFacetWeight (lopt : Option (List String)) (w : ℚ) : ℚ :=
  match lopt with
  | some _ => w
  | none => 0

/-- Contribution of a scalar facet in the code: its weight exactly when the
field is truthy and matches a preference entry (both to the numerator and to
the weight normaliser). -/
def scalarFacetTerm (sopt : Option String) (pref : List String) (w : ℚ) : ℚ :=
  match sopt with
  | some s => if s ≠ "" ∧ pref.contains s then w else 0
  | none => 0

/-- Weight contribution of a scalar facet as the claim words it: its weight
whenever the field is truthy, matched or not. -/
def claimScalarWeight (sopt : Option String) (w : ℚ) : ℚ :=
  match sopt with
  | some s => if s ≠ "" then w else 0
  | none => 0

/-- The weighted similarity numerator, common to the claim's formula and the
code. -/
def simNumerator (item : Item) (prefs : Preferences) : ℚ :=
  listFacetNum item.subjects prefs.subjects (2/5)
  + listFacetNum item.skills_required prefs.skills (3/10)
  + listFacetNum item.domain prefs.domains (1/5)
  + scalarFacetTerm item.company prefs.companies (1/10)
  + scalarFacetTerm item.organizer prefs.organizers (1/10)

/-- The weight normaliser as the claim words it: every facet the candidate
carries contributes its weight, a truthy scalar facet included even when it
matches no preference entry. -/
def claimWeightSum (item : Item) (prefs : Preferences) : ℚ :=
  listFacetWeight item.subjects (2/5)
  + listFacetWeight item.skills_required (3/10)
  + listFacetWeight item.domain (1/5)
  + claimScalarWeight item.company (1/10)
  + claimScalarWeight item.organizer (1/10)

/-- The weight normaliser the code accumulates: a scalar facet adds its
weight only when it actually matches. -/
def usedWeightSum (item : Item) (prefs : Preferences) : ℚ :=
  listFacetWeight item.subjects (2/5)
  + listFacetWeight item.skills_required (3/10)
  + listFacetWeight item.domain (1/5)
  + scalarFacetTerm item.company prefs.companies (1/10)
  + scalarFacetTerm item.organizer prefs.organizers (1/10)

/-- The similarity the claim asserts (claim-side definition, following the
claim's words). -/
def claimSimilarity (item : Item) (prefs : Preferences) : ℚ :=
  if claimWeightSum item prefs = 0 then 0
  else simNumerator item prefs / claimWeightSum item prefs

/-- The similarity as the amended claim words it: identical to the claim's
formula except that a present-but-unmatched company or organizer is excluded
from the weight normaliser. -/
def amendedSimilarity (item : Item) (prefs : Preferences) : ℚ :=
  if usedWeightSum item prefs = 0 then 0
  else simNumerator item prefs / usedWeightSum item prefs

/-- Evaluation of a list facet step on a real accumulator with a nonempty
facet. -/
theorem listFacetStep_eval (lopt : Option (List String)) (pref : List String)
    (w n W : ℚ) (hne : ∀ l, lopt = some l → l ≠ []) :
    listFacetStep lopt pref w (some n, W)
      = (some (n + listFacetNum lopt pref w), W + listFacetWeight lopt w) := by
  cases lopt with
  | none => simp [listFacetStep, listFacetNum, listFacetWeight]
  | some l =>
      have hl : l ≠ [] := hne l rfl
      have hlen : l.length ≠ 0 := fun h => hl (List.length_eq_zero.mp h)
      simp [listFacetStep, overlapFrac, hlen, addNum, facetRatio, listFacetNum,
        listFacetWeight]

/-- Evaluation of a scalar facet step on a real accumulator. -/
theorem scalarFacetStep_eval (sopt : Option String) (pref : List String)
    (w n W : ℚ) :
    scalarFacetStep sopt pref w (some n, W)
      = (some (n + scalarFacetTerm sopt pref w),
         W + scalarFacetTerm sopt pref w) := by
  cases sopt with
  | none => simp [scalarFacetStep, scalarFacetTerm]
  | some s =>
      simp only [scalarFacetStep, scalarFacetTerm]
      split_ifs with hc
      · simp [addNum]
      · simp

/-- With nonempty present list facets the accumulator computes exactly the
numerator and the code's weight normaliser. -/
theorem similarityAcc_eval (item : Item) (prefs : Preferences)
    (h1 : ∀ l, item.subjects = some l → l ≠ [])
    (h2 : ∀ l, item.skills_required = some l → l ≠ [])
    (h3 : ∀ l, item.domain = some l → l ≠ []) :
    similarityAcc item prefs
      = (some (simNumerator item prefs), usedWeightSum item prefs) := by
  unfold similarityAcc
  rw [listFacetStep_eval item.subjects prefs.subjects (2/5) 0 0 h1]
  rw [listFacetStep_eval item.skills_required prefs.skills (3/10) _ _ h2]
  rw [listFacetStep_eval item.domain prefs.domains (1/5) _ _ h3]
  rw [scalarFacetStep_eval item.company prefs.companies (1/10)]
  rw [scalarFacetStep_eval item.organizer prefs.organizers (1/10)]
  unfold simNumerator usedWeightSum
  simp only [Prod.mk.injEq, Option.some.injEq]
  exact ⟨by ring, by ring⟩

/-- C7 (amended): with nonempty present list facets the code similarity
equals the amended formula — weighted sum over the applicable facets divided
by the accumulated weights, where a present-but-unmatched company or
organizer contributes to neither — and a candidate is emitted exactly when
that similarity strictly exceeds 0.7. -/
theorem claim7_similarity_amended (item : Item) (prefs : Preferences)
    (h1 : ∀ l, item.subjects = some l → l ≠ [])
    (h2 : ∀ l, item.skills_required = some l → l ≠ [])
    (h3 : ∀ l, item.domain = some l → l ≠ []) :
    calculateContentSimilarity item prefs = some (amendedSimilarity item prefs)
    ∧ (∀ uid et rs, cbEmit uid et rs prefs [item] ≠ []
        ↔ 7/10 < amendedSimilarity item prefs) := by
  have heval := similarityAcc_eval item prefs h1 h2 h3
  have hWnn : 0 ≤ usedWeightSum item prefs := by
    have := (similarityAcc_bounded item prefs).1
    rwa [heval] at this
  have hsim : calculateContentSimilarity item prefs
      = some (amendedSimilarity item prefs) := by
    unfold calculateContentSimilarity amendedSimilarity
    rw [heval]
    by_cases hz : usedWeightSum item prefs = 0
    · rw [if_neg (by rw [hz]; exact lt_irrefl 0), if_pos hz]
    · rw [if_pos (lt_of_le_of_ne hWnn (Ne.symm hz)), if_neg hz]
      rfl
  refine ⟨hsim, ?_⟩
  intro uid et rs
  unfold cbEmit
  rw [List.filterMap_cons, hsim]
  simp only [List.filterMap_nil]
  by_cases hgt : 7/10 < amendedSimilarity item prefs
  · simp [if_pos hgt, hgt]
  · simp [if_neg hgt, hgt]

/-- An opportunity-like item with ten required skills — nine of them matching
the learner's preference aggregate — and a company no saved offering came
from. -/
def itemSkills : Item :=
  { id := 7, subjects := none,
    skills_required := some ["s1","s2","s3","s4","s5","s6","s7","s8","s9","s10"],
    domain := none, company := some "Acme", organizer := none }

/-- The preference aggregate matching nine of the ten skills of
`itemSkills` and no company. -/
def prefsSkills : Preferences :=
  { subjects := [], skills := ["s1","s2","s3","s4","s5","s6","s7","s8","s9"],
    domains := [], examTypes := [], companies := [], organizers := [] }

/-- Counterexample to C7 as stated: under the claim's formula — a present
company contributing its weight to the normaliser even when unmatched — the
item's similarity is 27/40 ≤ 0.7 and it should not be emitted, but the code
computes 9/10 (the unmatched company contributes nothing to the denominator)
and does emit it. -/
theorem claim7_counterexample :
    calculateContentSimilarity itemSkills prefsSkills = some (9/10)
    ∧ claimSimilarity itemSkills prefsSkills = 27/40
    ∧ ¬ (7/10 < claimSimilarity itemSkills prefsSkills)
    ∧ calculateContentSimilarity itemSkills prefsSkills
        ≠ some (claimSimilarity itemSkills prefsSkills)
    ∧ cbEmit 1 .opportunity [] prefsSkills [itemSkills] ≠ [] := by
  have h9 : ((["s1","s2","s3","s4","s5","s6","s7","s8","s9","s10"] : List String).filter
      fun s => prefsSkills.skills.contains s).length = 9 := rfl
  have hnum : simNumerator itemSkills prefsSkills = 27/100 := by
    simp +decide only [simNumerator, listFacetNum, scalarFacetTerm, facetRatio,
      itemSkills, h9]
    norm_num
  have hused : usedWeightSum itemSkills prefsSkills = 3/10 := by
    simp +decide only [usedWeightSum, listFacetWeight, scalarFacetTerm, itemSkills]
    norm_num
  have hclaimW : claimWeightSum itemSkills prefsSkills = 2/5 := by
    simp +decide only [claimWeightSum, listFacetWeight, claimScalarWeight, itemSkills]
    norm_num
  have hacc := similarityAcc_eval itemSkills prefsSkills
    (by intro l hl; simp [itemSkills] at hl)
    (by
      intro l hl
      simp only [itemSkills] at hl
      obtain rfl := Option.some.inj hl.symm
      decide)
    (by intro l hl; simp [itemSkills] at hl)
  have hcalc : calculateContentSimilarity itemSkills prefsSkills = some (9/10) := by
    unfold calculateContentSimilarity
    rw [hacc]
    simp only [hused, hnum]
    norm_num
  have hclaim : claimSimilarity itemSkills prefsSkills = 27/40 := by
    unfold claimSimilarity
    rw [hclaimW, hnum]
    norm_num
  refine ⟨hcalc, hclaim, ?_, ?_, ?_⟩
  · rw [hclaim]
    norm_num
  · rw [hcalc, hclaim]
    intro h
    obtain h2 := Option.some.inj h
    norm_num at h2
  · unfold cbEmit
    rw [List.filterMap_cons, hcalc]
    simp only [List.filterMap_nil]
    norm_num

/-- Witness for the amended C7 at `itemSkills`: its present list facet is
nonempty, so the code similarity equals the amended formula there. -/
theorem claim7_witness :
    calculateContentSimilarity itemSkills prefsSkills
      = some (amendedSimilarity itemSkills prefsSkills) :=
  (claim7_similarity_amended itemSkills prefsSkills
    (by intro l hl; simp [itemSkills] at hl)
    (by
      intro l hl
      simp only [itemSkills] at hl
      obtain rfl := Option.some.inj hl.symm
      decide)
    (by intro l hl; simp [itemSkills] at hl)).1

/-- Witness for the amended C1: a controller run from an empty store with a
one-exam pool leaves the active-uniqueness invariant intact. -/
theorem claim1_witness :
    ActiveKeysUnique (controllerGenerate [] uBoundary [eBoundary] [] 0 100) :=
  (claim1_controller_generate_unique [] uBoundary [eBoundary] [] 0 100
    (by unfold ActiveKeysUnique; simp) (by decide) (by decide)).1

end EduNav
